import Mathlib

/-!
Verification of the stockarena debate-orchestration backend.

The Python sources under `backend/app` are shallowly embedded: Lean `String`
is used for Python `str` (Lean 4.14 strings are lists of characters, matching
Python's sequence-of-code-points view for the ASCII data handled here), `Rat`
for Python floats (only exact decimal constants and arithmetic-free flows
occur), `Option` for `None`-able values, and `Except` for code that can raise.
External collaborators (yfinance, DuckDuckGo, the LLM layer, `json.loads`,
`float(str)`, `datetime` parsing) are parameters of the embedded functions.
-/

namespace StockArena

/-! ## Python string primitives

Helpers mirroring the Python `str` operations used by the sources.
Characters are handled at the ASCII level, which covers the ticker,
exchange and keyword data these functions act on.
-/

/-- Python truthiness of a string: non-empty. -/
def strTruthy (s : String) : Bool := s ≠ ""

/-- Python truthiness of an optional string (`None` and `""` are falsy). -/
def optStrTruthy : Option String → Bool
  | none => false
  | some s => strTruthy s

/-- `s.upper()` (ASCII). -/
def pyUpper (s : String) : String := ⟨s.data.map Char.toUpper⟩

/-- `s.lower()` (ASCII). -/
def pyLower (s : String) : String := ⟨s.data.map Char.toLower⟩

/-- Strip leading whitespace from a character list. -/
def stripLeftL (l : List Char) : List Char := l.dropWhile Char.isWhitespace

/-- Strip trailing whitespace from a character list. -/
def stripRightL (l : List Char) : List Char :=
  (l.reverse.dropWhile Char.isWhitespace).reverse

/-- `s.strip()`: remove whitespace from both ends. -/
def pyStrip (s : String) : String := ⟨stripRightL (stripLeftL s.data)⟩

/-- `s.endswith(t)` as a list suffix test. -/
def pyEndsWith (s t : String) : Bool := t.data.isSuffixOf s.data

/-- `s[:-n]`: drop the last `n` characters. -/
def pyDropRight (s : String) (n : Nat) : String := ⟨s.data.take (s.data.length - n)⟩

/-- `s[:n]`: take the first `n` characters. -/
def pyTake (s : String) (n : Nat) : String := ⟨s.data.take n⟩

/-! ## `services/stock_service.py`: `format_ticker` -/

/-- `format_ticker(ticker, exchange)` from `stock_service.py`:
uppercase and strip the raw symbol, drop one trailing `.NS`/`.BO`
suffix if present, then append `.NS` for NSE and `.BO` otherwise. -/
def format_ticker (ticker : String) (exchange : String) : String :=
  let t := pyStrip (pyUpper ticker)
  let t := if pyEndsWith t ".NS" || pyEndsWith t ".BO" then pyDropRight t 3 else t
  let suffix := if pyUpper exchange = "NSE" then ".NS" else ".BO"
  t ++ suffix

/-- The claim's own wording of ticker formatting: the whitespace-trimmed,
uppercased input with at most one trailing `.NS` or `.BO` removed, followed
by `.NS` exactly when the exchange uppercases to `"NSE"` and `.BO` otherwise.
(The claim trims first and uppercases second; the code uppercases first.) -/
def claimFormatTicker (ticker : String) (exchange : String) : String :=
  let base := pyUpper (pyStrip ticker)
  let core := if pyEndsWith base ".NS" || pyEndsWith base ".BO"
              then pyDropRight base 3 else base
  core ++ (if pyUpper exchange = "NSE" then ".NS" else ".BO")

/-- The part of `format_ticker`'s result that precedes the exchange suffix. -/
def ftCore (ticker : String) : String :=
  if pyEndsWith (pyStrip (pyUpper ticker)) ".NS" || pyEndsWith (pyStrip (pyUpper ticker)) ".BO"
  then pyDropRight (pyStrip (pyUpper ticker)) 3
  else pyStrip (pyUpper ticker)

/-- The exchange suffix chosen by `format_ticker`. -/
def ftSuffix (exchange : String) : String :=
  if pyUpper exchange = "NSE" then ".NS" else ".BO"

/-! ## More Python string primitives (substring search, replace, split) -/

/-- One scan step of Python `str.replace`: at each position, if the non-empty
pattern matches, emit the replacement and skip the pattern, else copy one
character.  Fuel is the length of the scanned list (each step consumes at
least one character when the pattern is non-empty). -/
def replaceAllAux (pat rep : List Char) : Nat → List Char → List Char
  | 0, l => l
  | _ + 1, [] => []
  | n + 1, c :: rest =>
    if pat ≠ [] && pat.isPrefixOf (c :: rest) then
      rep ++ replaceAllAux pat rep n ((c :: rest).drop pat.length)
    else
      c :: replaceAllAux pat rep n rest

/-- `s.replace(pat, rep)` for a non-empty pattern (every call site uses a
non-empty literal pattern). -/
def pyReplace (s pat rep : String) : String :=
  ⟨replaceAllAux pat.data rep.data s.data.length s.data⟩

/-- Substring occurrence test on character lists. -/
def containsAux (needle : List Char) : List Char → Bool
  | [] => needle.isEmpty
  | c :: rest => needle.isPrefixOf (c :: rest) || containsAux needle rest

/-- Python `needle in hay` for strings. -/
def pyContains (hay needle : String) : Bool := containsAux needle.data hay.data

/-- Accumulate maximal whitespace-free words (`acc` holds the current word
reversed), mirroring Python `str.split()` with no argument. -/
def wordsAux : List Char → List Char → List (List Char)
  | [], acc => if acc = [] then [] else [acc.reverse]
  | c :: rest, acc =>
    if c.isWhitespace then
      (if acc = [] then wordsAux rest [] else acc.reverse :: wordsAux rest [])
    else wordsAux rest (c :: acc)

/-- `s.split()`: split on whitespace runs, dropping empty pieces. -/
def pySplitWS (s : String) : List String := (wordsAux s.data []).map (fun l => ⟨l⟩)

/-- A regex word character (`\w` over the ASCII data in play). -/
def isWordChar (c : Char) : Bool := c.isAlphanum || c = '_'

def isWordCharOpt : Option Char → Bool
  | none => false
  | some c => isWordChar c

/-- Does the (non-empty, literal) needle match at the head of `l`, with a
regex word boundary on both sides?  `prev` is the character preceding `l`
in the full text, if any. -/
def wbMatchAt (needle : List Char) (prev : Option Char) (l : List Char) : Bool :=
  needle.isPrefixOf l &&
  (isWordCharOpt prev != isWordCharOpt needle.head?) &&
  (isWordCharOpt needle.getLast? != isWordCharOpt (l.get? needle.length))

def wbSearchAux (needle : List Char) : Option Char → List Char → Bool
  | prev, [] => wbMatchAt needle prev []
  | prev, c :: rest => wbMatchAt needle prev (c :: rest) || wbSearchAux needle (some c) rest

/-- `re.search(rf"\b{re.escape(needle)}\b", hay)` for a literal needle. -/
def pyWordBoundarySearch (hay needle : String) : Bool :=
  wbSearchAux needle.data none hay.data

/-! ## Data model (`core/graph/state.py`)

Python floats are embedded as `Rat` (only exact decimal constants flow
through the modeled paths) and `datetime` timestamps as abstract `Nat`
clock ticks supplied by the caller. -/

inductive TimeHorizon where
  | short_term
  | medium_term
  | long_term
deriving DecidableEq, Repr

/-- `StockData` from `state.py`.  `historical_prices` is a list of
string-keyed numeric records (`list[dict]` in the source). -/
structure StockData where
  ticker : String
  company_name : Option String := none
  current_price : Rat
  price_change_percent : Rat := 0
  volume : Int := 0
  market_cap : Option Rat := none
  pe_ratio : Option Rat := none
  fifty_two_week_high : Rat := 0
  fifty_two_week_low : Rat := 0
  sector : Option String := none
  industry : Option String := none
  historical_prices : List (List (String × Rat)) := []
  promoter_holding : Option Rat := none
  fii_holding : Option Rat := none
  dii_holding : Option Rat := none
  public_holding : Option Rat := none
  beta : Option Rat := none
  dividend_yield : Option Rat := none
  book_value : Option Rat := none
  eps : Option Rat := none
  pb_ratio : Option Rat := none
  debt_to_equity : Option Rat := none
  roe : Option Rat := none
  analyst_buy : Int := 0
  analyst_hold : Int := 0
  analyst_sell : Int := 0
  target_price : Option Rat := none
  quarterly_revenue : Option Rat := none
  quarterly_profit : Option Rat := none
  revenue_growth : Option Rat := none
  profit_growth : Option Rat := none
deriving DecidableEq, Repr

/-- `NewsItem` from `state.py`. -/
structure NewsItem where
  title : String
  snippet : String
  source : String
  url : String
  date : String
deriving DecidableEq, Repr

/-- `Source` from `state.py`. -/
structure Source where
  type : String
  name : String
  url : Option String := none
deriving DecidableEq, Repr

/-- `AgentArgument` from `state.py` (pydantic bounds `0 ≤ confidence ≤ 1`
are enforced at the construction sites that model pydantic validation). -/
structure AgentArgument where
  point : String
  evidence : String
  confidence : Rat
deriving DecidableEq, Repr

inductive AgentType where
  | bull
  | bear
  | moderator
deriving DecidableEq, Repr

/-- `AgentAnalysis` from `state.py`; `timestamp` is the abstract
`datetime.utcnow()` tick supplied by the caller. -/
structure AgentAnalysis where
  agent_type : AgentType
  summary : String
  arguments : List AgentArgument := []
  recommendation : Option String := none
  confidence_score : Rat
  sources : List Source := []
  timestamp : Nat := 0
deriving DecidableEq, Repr

/-- `StreamUpdate` from `state.py`; the `dict`-valued fields hold the
structured values whose `model_dump()` the source stores. -/
structure StreamUpdate where
  type : String
  agent : Option String := none
  content : Option String := none
  analysis : Option AgentAnalysis := none
  stock_data : Option StockData := none
  news_items : Option (List NewsItem) := none
  error : Option String := none
  round_number : Option Nat := none
  message : Option String := none
deriving DecidableEq, Repr

/-! ## `services/news_service.py` -/

/-- A raw result dict produced by `parse_news_data`; `none` models an
absent key (`item.get(k, "")` supplies the default). -/
structure RawNewsItem where
  title : Option String := none
  snippet : Option String := none
  source : Option String := none
  url : Option String := none
  date : Option String := none
deriving DecidableEq, Repr

/-- `item.get(key, "")`. -/
def pyGetStr (o : Option String) : String := o.getD ""

def MAX_NEWS_AGE_DAYS : Int := 60

/-- `_is_recent_news(date_str)`.  `parseDate` abstracts
`datetime.fromisoformat` (after the `"Z" → "+00:00"` rewrite), returning
the absolute timestamp in seconds; `now` abstracts the current clock in the
same unit.  `(now - d).fdiv 86400` is `timedelta.days` (floor division). -/
def is_recent_news (parseDate : String → Option Int) (now : Int) (date_str : String) : Bool :=
  if date_str = "" then false
  else
    match parseDate date_str with
    | none => false
    | some d => (now - d).fdiv 86400 ≤ MAX_NEWS_AGE_DAYS

/-- The lowercased `title + " " + snippet + " " + url` text of a raw item. -/
def combinedText (item : RawNewsItem) : String :=
  pyLower (pyGetStr item.title) ++ " " ++ pyLower (pyGetStr item.snippet) ++ " " ++
    pyLower (pyGetStr item.url)

/-- `ticker.replace(".NS", "").replace(".BO", "").lower()` — note the
source removes every occurrence, not only a trailing suffix. -/
def cleanTicker (ticker : String) : String :=
  pyLower (pyReplace (pyReplace ticker ".NS" "") ".BO" "")

def company_suffixes : List String :=
  ["limited", "ltd", "ltd.", "inc", "inc.", "corporation", "corp", "corp."]

/-- The suffix-removal loop of `_is_relevant_news`:
`company_lower = company_lower.replace(suffix, "").strip()` over the fixed
suffix list. -/
def removeCompanySuffixes (s : String) : String :=
  company_suffixes.foldl (fun acc suf => pyStrip (pyReplace acc suf "")) s

def generic_words : List String := ["the", "new", "india", "indian"]

/-- `_is_relevant_news(item, ticker, company_name)` from `news_service.py`. -/
def is_relevant_news (item : RawNewsItem) (ticker : String)
    (company_name : Option String) : Bool :=
  let combined_text := combinedText item
  let clean_ticker := cleanTicker ticker
  if pyContains combined_text clean_ticker then true
  else if !optStrTruthy company_name then false
  else
    let company_lower := removeCompanySuffixes (pyLower (pyGetStr company_name))
    if strTruthy company_lower && pyContains combined_text company_lower then true
    else
      match pySplitWS company_lower with
      | [] => false
      | first_word :: _ =>
        if first_word.length > 3 && !(generic_words.contains first_word) then
          pyWordBoundarySearch combined_text first_word
        else false

/-- Convert a filtered raw dict into a `NewsItem` (the final comprehension
of `search_news`). -/
def rawToNewsItem (item : RawNewsItem) : NewsItem :=
  { title := pyGetStr item.title, snippet := pyGetStr item.snippet,
    source := pyGetStr item.source, url := pyGetStr item.url,
    date := pyGetStr item.date }

/-- The filtering pipeline of `search_news` from `news_service.py`, applied
to the raw result list already fetched and parsed (`raw` stands for
`parse_news_data(json_str)`; the network fetch itself is outside the
embedding).  Recency filter, then relevance filter when a truthy ticker is
supplied, then truncation to `max_results`, then conversion. -/
def search_news (parseDate : String → Option Int) (now : Int)
    (raw : List RawNewsItem) (max_results : Nat)
    (ticker : Option String) (company_name : Option String) : List NewsItem :=
  let data := raw.filter (fun item => is_recent_news parseDate now (pyGetStr item.date))
  let data :=
    if optStrTruthy ticker then
      data.filter (fun item => is_relevant_news item (pyGetStr ticker) company_name)
    else data
  let data := data.take max_results
  data.map rawToNewsItem

/-- The claim's recency description: an item is dropped when its date is
empty, unparseable, or older than 60 days. -/
def claimRecencyDropped (parseDate : String → Option Int) (now : Int)
    (item : RawNewsItem) : Bool :=
  pyGetStr item.date = "" ||
    (match parseDate (pyGetStr item.date) with
     | none => true
     | some d => decide (MAX_NEWS_AGE_DAYS < (now - d).fdiv 86400))

/-- "Suffix-stripped ticker" read literally: at most one trailing `.NS` or
`.BO` removed (then lowercased for the containment test). -/
def suffixStrippedTicker (ticker : String) : String :=
  pyLower (if pyEndsWith ticker ".NS" || pyEndsWith ticker ".BO"
           then pyDropRight ticker 3 else ticker)

/-- The claim's relevance description, parameterized by the ticker-cleaning
function: keep an item when its combined text contains the cleaned ticker,
or the cleaned company name, or the company's first significant word
(length > 3, outside the generic stoplist, on a word boundary). -/
def claimRelevantKeep (clean : String → String) (item : RawNewsItem) (ticker : String)
    (company_name : Option String) : Bool :=
  let text := combinedText item
  pyContains text (clean ticker) ||
    (match company_name with
     | none => false
     | some cn =>
       let cl := removeCompanySuffixes (pyLower cn)
       (strTruthy cl && pyContains text cl) ||
         (match pySplitWS cl with
          | [] => false
          | w :: _ =>
            (decide (w.length > 3) && !(generic_words.contains w)) &&
              pyWordBoundarySearch text w))

/-- The news pipeline as the claim words it, parameterized by the
ticker-cleaning function: drop stale/undated items, then (when a ticker is
supplied) drop irrelevant items, then truncate, preserving order. -/
def claimSearchNewsWith (clean : String → String) (parseDate : String → Option Int)
    (now : Int) (raw : List RawNewsItem) (max_results : Nat)
    (ticker : Option String) (company_name : Option String) : List NewsItem :=
  let kept := raw.filter (fun item => !(claimRecencyDropped parseDate now item))
  let kept :=
    if optStrTruthy ticker then
      kept.filter (fun item => claimRelevantKeep clean item (pyGetStr ticker) company_name)
    else kept
  (kept.take max_results).map rawToNewsItem

/-- The claim as stated: ticker cleaning removes one trailing suffix. -/
def claimSearchNews := claimSearchNewsWith suffixStrippedTicker

/-- The amended claim: ticker cleaning removes every `.NS`/`.BO`
occurrence, as the source does. -/
def amendedSearchNews := claimSearchNewsWith cleanTicker

/-- A concrete date parser: `"old"` is 61 days before time 0, `"new"` is
59 days before, anything else fails to parse. -/
def c6pd : String → Option Int := fun s =>
  if s = "old" then some (0 - 61 * 86400)
  else if s = "new" then some (0 - 59 * 86400)
  else none

/-- A date parser under which every date string parses to time 0. -/
def c6pd2 : String → Option Int := fun _ => some 0

/-- A raw news item mentioning `"ab.x"` (the source's cleaned form of
ticker `"AB.NS.X.NS"`) but not `"ab.ns.x"` (its suffix-stripped form). -/
def c6item : RawNewsItem :=
  { title := some "ab.x rallies", snippet := some "", source := some "s",
    url := some "", date := some "d" }

/-! ## Source citations (`_build_sources` in `bull_agent.py`/`bear_agent.py`,
`_combine_sources` in `moderator_agent.py`) -/

/-- The quote-provider citation both builders put first. -/
def yahooSource (stock_data : StockData) : Source :=
  { type := "stock_data", name := "Yahoo Finance",
    url := some ("https://finance.yahoo.com/quote/" ++ stock_data.ticker) }

/-- `item.title[:60] + "..." if len(item.title) > 60 else item.title`. -/
def truncTitle (title : String) : String :=
  if title.length > 60 then pyTake title 60 ++ "..." else title

/-- The display name of a news citation: `"source: truncated-title"` when
the title is non-empty, otherwise just the source name. -/
def newsSourceName (item : NewsItem) : String :=
  if strTruthy item.title then item.source ++ ": " ++ truncTitle item.title else item.source

def newsCitation (item : NewsItem) : Source :=
  { type := "news", name := newsSourceName item, url := some item.url }

/-- The loop of `_build_sources`: `seen` is the `seen_sources` set. -/
def build_sources_aux : List NewsItem → List Source → List String → List Source
  | [], sources, _ => sources
  | item :: rest, sources, seen =>
    if strTruthy item.url && (strTruthy item.source && !(seen.contains item.source)) then
      build_sources_aux rest (sources ++ [newsCitation item]) (seen ++ [item.source])
    else build_sources_aux rest sources seen

/-- `_build_sources(stock_data, news_items)` (identical in `BullAgent` and
`BearAgent`): the Yahoo Finance citation, then one citation per distinct
source among the first 3 items with truthy url and source. -/
def build_sources (stock_data : StockData) (news_items : List NewsItem) : List Source :=
  build_sources_aux (news_items.take 3) [yahooSource stock_data] []

/-- The url of a source when truthly present (used to restate the seen-url
set of `_combine_sources`). -/
def truthyUrl (s : Source) : Option String :=
  if optStrTruthy s.url then some (s.url.getD "") else none

/-- The loop of `_combine_sources`: `seen_urls` starts at the Yahoo url. -/
def combine_sources_aux : List Source → List Source → List String → List Source
  | [], acc, _ => acc
  | src :: rest, acc, seen_urls =>
    if optStrTruthy src.url && !(seen_urls.contains (src.url.getD "")) then
      combine_sources_aux rest (acc ++ [src]) (seen_urls ++ [src.url.getD ""])
    else if !(optStrTruthy src.url) && !((acc.map Source.name).contains src.name) then
      combine_sources_aux rest (acc ++ [src]) seen_urls
    else combine_sources_aux rest acc seen_urls

/-- `_combine_sources(stock_data, bull_analysis, bear_analysis)` from
`moderator_agent.py`. -/
def combine_sources (stock_data : StockData)
    (bull_analysis bear_analysis : AgentAnalysis) : List Source :=
  combine_sources_aux (bull_analysis.sources ++ bear_analysis.sources)
    [yahooSource stock_data]
    ["https://finance.yahoo.com/quote/" ++ stock_data.ticker]

/-- First-occurrence deduplication by a string key, against an initial set
of already-seen keys. -/
def dedupByKey {α : Type} (key : α → String) : List α → List String → List α
  | [], _ => []
  | x :: rest, seen =>
    if seen.contains (key x) then dedupByKey key rest seen
    else x :: dedupByKey key rest (seen ++ [key x])

/-- The claim's description of the bull/bear citation list, with the
amended display-name rule (`newsCitation`): the quote-provider citation
first, then one citation per distinct source name among the first 3 news
items whose url and source are both non-empty. -/
def amendedBuildSources (stock_data : StockData) (news_items : List NewsItem) : List Source :=
  yahooSource stock_data ::
    (dedupByKey NewsItem.source
      ((news_items.take 3).filter (fun i => strTruthy i.url && strTruthy i.source))
      []).map newsCitation

/-- The claim's display-name rule read literally: always `"source: title"`,
even for an empty title. -/
def claimNewsCitation (item : NewsItem) : Source :=
  { type := "news", name := item.source ++ ": " ++ truncTitle item.title,
    url := some item.url }

/-- The claim as stated (display name always `"source: title"`). -/
def claimBuildSources (stock_data : StockData) (news_items : List NewsItem) : List Source :=
  yahooSource stock_data ::
    (dedupByKey NewsItem.source
      ((news_items.take 3).filter (fun i => strTruthy i.url && strTruthy i.source))
      []).map claimNewsCitation

/-- The claim's description of the moderator's citation list: walk the
union of bull's and bear's citations, keeping an entry when its truthy url
is not already among the chosen urls, or, for url-less entries, when its
name is not already among the chosen names. -/
def specCombineAux : List Source → List Source → List Source
  | [], acc => acc
  | src :: rest, acc =>
    if optStrTruthy src.url && !((acc.filterMap truthyUrl).contains (src.url.getD "")) then
      specCombineAux rest (acc ++ [src])
    else if !(optStrTruthy src.url) && !((acc.map Source.name).contains src.name) then
      specCombineAux rest (acc ++ [src])
    else specCombineAux rest acc

def claimCombineSources (stock_data : StockData)
    (bull_analysis bear_analysis : AgentAnalysis) : List Source :=
  specCombineAux (bull_analysis.sources ++ bear_analysis.sources) [yahooSource stock_data]

/-- Stock data for the C7 counterexample. -/
def c7sd : StockData := { ticker := "T", current_price := 0 }

/-- A news item with empty title but truthy url and source: the code emits
display name `"s"`, the claim's rule says `"s: "`. -/
def c7item : NewsItem :=
  { title := "", snippet := "", source := "s", url := "u", date := "" }

/-! ## Model completion parsing (`_parse_result` in the agent classes)

The raw completion is sliced between its first `{` and last `}` and handed
to `json.loads`; the parsed value is then picked apart with `dict.get` and
`float(...)` and validated by the pydantic constructors.  `json.loads` and
`float(str)` are external library calls, abstracted as `PyPrims`; the JSON
value space and the post-parse extraction are embedded exactly, including
which Python exception class each failure raises, because the source's
`except` clause catches only `json.JSONDecodeError`, `ValueError` (which
includes pydantic's `ValidationError`) and `KeyError`. -/

inductive Json where
  | null
  | bool (b : Bool)
  | num (q : Rat)
  | str (s : String)
  | arr (elems : List Json)
  | obj (fields : List (String × Json))
deriving Repr

/-- The Python exception classes the embedded extraction can raise.
`json.JSONDecodeError` is represented by `PyPrims.jsonLoads` returning
`none` (it is a subclass of `ValueError` and always caught). -/
inductive PyErr where
  | valueError
  | typeError
  | attributeError
deriving DecidableEq, Repr

/-- Is the exception caught by `except (json.JSONDecodeError, ValueError,
KeyError)`?  `TypeError` and `AttributeError` are not. -/
def pyErrCaught : PyErr → Bool
  | .valueError => true
  | .typeError => false
  | .attributeError => false

/-- The external library calls of `_parse_result`: `json.loads` (with
`none` for a `JSONDecodeError`) and `float` applied to a string. -/
structure PyPrims where
  jsonLoads : String → Option Json
  floatOfString : String → Option Rat

/-- `d.get(key)` on the parsed JSON object. -/
def jsonGet (fields : List (String × Json)) (key : String) : Option Json :=
  (fields.find? (fun p => p.1 = key)).map (fun p => p.2)

/-- `float(v)` on a parsed JSON value: numbers and booleans convert,
strings go through `float(str)` (`ValueError` on failure), `None`, lists
and dicts raise `TypeError`. -/
def pyFloat (floatOfString : String → Option Rat) : Json → Except PyErr Rat
  | .num q => .ok q
  | .bool b => .ok (if b then 1 else 0)
  | .str s =>
    match floatOfString s with
    | some q => .ok q
    | none => .error .valueError
  | .null => .error .typeError
  | .arr _ => .error .typeError
  | .obj _ => .error .typeError

/-- Pydantic validation of a `str` field: any non-string raises
`ValidationError` (a `ValueError`). -/
def pyStrField : Json → Except PyErr String
  | .str s => .ok s
  | _ => .error .valueError

/-- Pydantic `Field(ge=0.0, le=1.0)` validation. -/
def validate01 (q : Rat) : Except PyErr Rat :=
  if 0 ≤ q ∧ q ≤ 1 then .ok q else .error .valueError

/-- One element of the `arguments` comprehension:
`AgentArgument(point=arg.get("point",""), evidence=arg.get("evidence",""),
confidence=float(arg.get("confidence", 0.7)))`.  A non-dict element has no
`.get` and raises `AttributeError`. -/
def parseArgument (floatOfString : String → Option Rat) (j : Json) :
    Except PyErr AgentArgument :=
  match j with
  | .obj fields =>
    match pyFloat floatOfString ((jsonGet fields "confidence").getD (.num (7/10))) with
    | .error e => .error e
    | .ok confidence =>
      match (match jsonGet fields "point" with
             | none => Except.ok ""
             | some v => pyStrField v) with
      | .error e => .error e
      | .ok point =>
        match (match jsonGet fields "evidence" with
               | none => Except.ok ""
               | some v => pyStrField v) with
        | .error e => .error e
        | .ok evidence =>
          match validate01 confidence with
          | .error e => .error e
          | .ok c => .ok { point := point, evidence := evidence, confidence := c }
  | _ => .error .attributeError

/-- The whole `arguments` comprehension over `data.get("arguments", [])`:
iterating a non-empty string yields character strings (no `.get`:
`AttributeError`), iterating a non-empty dict yields key strings
(`AttributeError`), and non-iterables raise `TypeError`. -/
def parseArguments (floatOfString : String → Option Rat) (argsJ : Json) :
    Except PyErr (List AgentArgument) :=
  match argsJ with
  | .arr elems => elems.mapM (parseArgument floatOfString)
  | .str s => if s = "" then .ok [] else .error .attributeError
  | .obj [] => .ok []
  | .obj (_ :: _) => .error .attributeError
  | .null => .error .typeError
  | .num _ => .error .typeError
  | .bool _ => .error .typeError

/-- `s.find(c)`: index of the first occurrence. -/
def pyFindChar (s : String) (c : Char) : Option Nat :=
  s.data.findIdx? (fun x => x = c)

/-- `s.rfind(c)`: index of the last occurrence. -/
def pyRFindChar (s : String) (c : Char) : Option Nat :=
  (s.data.reverse.findIdx? (fun x => x = c)).map (fun i => s.data.length - 1 - i)

/-- The brace slice of `_parse_result`: `result_str[start_idx:end_idx]`
with `start_idx = find("{")`, `end_idx = rfind("}") + 1`, taken only when
`start_idx != -1 and end_idx > start_idx`. -/
def jsonSlice (s : String) : Option String :=
  match pyFindChar s '{' with
  | none => none
  | some si =>
    match pyRFindChar s '}' with
    | none => none
    | some ei' =>
      if ei' + 1 > si then some ⟨(s.data.drop si).take (ei' + 1 - si)⟩ else none

/-- The bull agent's fallback `AgentAnalysis` (the code after the
`except` clause). -/
def bullFallback (tNow : Nat) (result : String) (sources : List Source) : AgentAnalysis :=
  { agent_type := .bull,
    summary := if strTruthy result then pyTake result 500 else "Analysis completed.",
    arguments := [{ point := "See detailed analysis",
                    evidence := if strTruthy result then pyTake result 300 else "",
                    confidence := 6/10 }],
    recommendation := none,
    confidence_score := 6/10,
    sources := sources,
    timestamp := tNow }

/-- The bear agent's fallback `AgentAnalysis` (identical shape). -/
def bearFallback (tNow : Nat) (result : String) (sources : List Source) : AgentAnalysis :=
  { bullFallback tNow result sources with agent_type := .bear }

/-- The moderator's fallback `AgentAnalysis`: empty arguments,
`MIXED SIGNALS`, confidence 0.5. -/
def moderatorFallback (tNow : Nat) (result : String) (sources : List Source) : AgentAnalysis :=
  { agent_type := .moderator,
    summary := if strTruthy result then pyTake result 500 else "Analysis completed.",
    arguments := [],
    recommendation := some "MIXED SIGNALS",
    confidence_score := 5/10,
    sources := sources,
    timestamp := tNow }

/-- The `try`-block body of the bull `_parse_result` on the parsed JSON
value, in Python's evaluation order: the `arguments` comprehension, then
`float(data.get("confidence_score", 0.7))`, then pydantic validation of
`summary` and of the confidence bound. -/
def extractBull (prims : PyPrims) (tNow : Nat) (data : Json) (sources : List Source) :
    Except PyErr AgentAnalysis :=
  match data with
  | .obj fields =>
    match parseArguments prims.floatOfString ((jsonGet fields "arguments").getD (.arr [])) with
    | .error e => .error e
    | .ok args =>
      match pyFloat prims.floatOfString
          ((jsonGet fields "confidence_score").getD (.num (7/10))) with
      | .error e => .error e
      | .ok csRaw =>
        match (match jsonGet fields "summary" with
               | none => Except.ok "Bullish analysis completed."
               | some v => pyStrField v) with
        | .error e => .error e
        | .ok summary =>
          match validate01 csRaw with
          | .error e => .error e
          | .ok cs =>
            .ok { agent_type := .bull, summary := summary, arguments := args,
                  recommendation := none, confidence_score := cs, sources := sources,
                  timestamp := tNow }
  | _ => .error .attributeError

/-- Same for the bear agent (default summary differs). -/
def extractBear (prims : PyPrims) (tNow : Nat) (data : Json) (sources : List Source) :
    Except PyErr AgentAnalysis :=
  match data with
  | .obj fields =>
    match parseArguments prims.floatOfString ((jsonGet fields "arguments").getD (.arr [])) with
    | .error e => .error e
    | .ok args =>
      match pyFloat prims.floatOfString
          ((jsonGet fields "confidence_score").getD (.num (7/10))) with
      | .error e => .error e
      | .ok csRaw =>
        match (match jsonGet fields "summary" with
               | none => Except.ok "Bearish analysis completed."
               | some v => pyStrField v) with
        | .error e => .error e
        | .ok summary =>
          match validate01 csRaw with
          | .error e => .error e
          | .ok cs =>
            .ok { agent_type := .bear, summary := summary, arguments := args,
                  recommendation := none, confidence_score := cs, sources := sources,
                  timestamp := tNow }
  | _ => .error .attributeError

def valid_recommendations : List String :=
  ["LOOKS BULLISH", "LEANS BULLISH", "MIXED SIGNALS", "LEANS BEARISH", "LOOKS BEARISH"]

/-- The recommendation coercion of the moderator `_parse_result`:
`data.get("recommendation", "MIXED SIGNALS")` is replaced by
`"MIXED SIGNALS"` unless it is (string-)equal to a member of the closed
5-value set. -/
def coerceRecommendation (recJ : Json) : String :=
  match recJ with
  | .str s => if valid_recommendations.contains s then s else "MIXED SIGNALS"
  | _ => "MIXED SIGNALS"

/-- The `try`-block body of the moderator `_parse_result`. -/
def extractModerator (prims : PyPrims) (tNow : Nat) (data : Json) (sources : List Source) :
    Except PyErr AgentAnalysis :=
  match data with
  | .obj fields =>
    match parseArguments prims.floatOfString ((jsonGet fields "arguments").getD (.arr [])) with
    | .error e => .error e
    | .ok args =>
      match pyFloat prims.floatOfString
          ((jsonGet fields "confidence_score").getD (.num (7/10))) with
      | .error e => .error e
      | .ok csRaw =>
        match (match jsonGet fields "summary" with
               | none => Except.ok "Analysis completed."
               | some v => pyStrField v) with
        | .error e => .error e
        | .ok summary =>
          match validate01 csRaw with
          | .error e => .error e
          | .ok cs =>
            .ok { agent_type := .moderator, summary := summary, arguments := args,
                  recommendation := some (coerceRecommendation
                    ((jsonGet fields "recommendation").getD (.str "MIXED SIGNALS"))),
                  confidence_score := cs, sources := sources, timestamp := tNow }
  | _ => .error .attributeError

/-- The common `_parse_result` skeleton: slice out the braces, attempt the
structured parse, fall back on caught exceptions, propagate uncaught ones
(`Except.error` models an exception escaping `_parse_result`). -/
def parseResultWith
    (extract : PyPrims → Nat → Json → List Source → Except PyErr AgentAnalysis)
    (fallback : Nat → String → List Source → AgentAnalysis)
    (prims : PyPrims) (tNow : Nat) (result : String) (sources : List Source) :
    Except PyErr AgentAnalysis :=
  match jsonSlice result with
  | none => .ok (fallback tNow result sources)
  | some slice =>
    match prims.jsonLoads slice with
    | none => .ok (fallback tNow result sources)
    | some data =>
      match extract prims tNow data sources with
      | .ok a => .ok a
      | .error e => if pyErrCaught e then .ok (fallback tNow result sources) else .error e

/-- `BullAgent._parse_result`. -/
def BullAgent.parse_result : PyPrims → Nat → String → List Source →
    Except PyErr AgentAnalysis :=
  parseResultWith extractBull bullFallback

/-- `BearAgent._parse_result`. -/
def BearAgent.parse_result : PyPrims → Nat → String → List Source →
    Except PyErr AgentAnalysis :=
  parseResultWith extractBear bearFallback

/-- `ModeratorAgent._parse_result`. -/
def ModeratorAgent.parse_result : PyPrims → Nat → String → List Source →
    Except PyErr AgentAnalysis :=
  parseResultWith extractModerator moderatorFallback

/-- The `recommendation` value a completion parses to, if any: the brace
slice must parse to an object and carry the key. -/
def extractedRecommendation (prims : PyPrims) (result : String) : Option Json :=
  match jsonSlice result with
  | none => none
  | some slice =>
    match prims.jsonLoads slice with
    | none => none
    | some data =>
      match data with
      | Json.obj fields => jsonGet fields "recommendation"
      | _ => none

/-- A structurally valid completion whose `confidence_score` is JSON
`null`: `float(None)` raises `TypeError`, which the `except` clause does
not catch. -/
def c4input : String :=
  "\x7b\"summary\": \"x\", \"arguments\": [], \"confidence_score\": null\x7d"

/-- The JSON value `json.loads` produces for `c4input`. -/
def c4json : Json :=
  Json.obj [("summary", Json.str "x"), ("arguments", Json.arr []),
    ("confidence_score", Json.null)]

/-- Concrete primitives for the C4 witness. -/
def c4prims : PyPrims :=
  { jsonLoads := fun s => if s = c4input then some c4json else none,
    floatOfString := fun _ => none }

/-- A completion whose `recommendation` is `"VERY BULLISH"`. -/
def c5input : String :=
  "\x7b\"summary\": \"ok\", \"arguments\": [], \"recommendation\": \"VERY BULLISH\", \"confidence_score\": 1\x7d"

/-- The JSON value `json.loads` produces for `c5input`. -/
def c5json : Json :=
  Json.obj [("summary", Json.str "ok"), ("arguments", Json.arr []),
    ("recommendation", Json.str "VERY BULLISH"), ("confidence_score", Json.num 1)]

/-- Concrete primitives for the C5 witness. -/
def c5prims : PyPrims :=
  { jsonLoads := fun s => if s = c5input then some c5json else none,
    floatOfString := fun _ => none }

/-- The analysis the moderator parser produces for `c5input`. -/
def c5analysis : AgentAnalysis :=
  { agent_type := .moderator, summary := "ok", arguments := [],
    recommendation := some "MIXED SIGNALS", confidence_score := 1,
    sources := [], timestamp := 0 }

/-! ## Debate state machine (`core/graph/state.py`, `nodes.py`, `edges.py`,
`builder.py`)

The LangGraph channels: `debate_history` is `Annotated[..., operator.add]`
(append), `stream_updates` is a plain list (each node's write replaces it),
every other key is last-write-wins.  Each node function below applies the
node's returned update dict to the state.  Conditional edges route on the
state **after** the source node's updates are applied (LangGraph passes the
updated state to the path function). -/

/-- A debate-history round tag: bull/bear entries carry their round
number, the moderator entry carries the string `"final"`. -/
inductive RoundTag where
  | num (n : Nat)
  | final
deriving DecidableEq, Repr

/-- One `debate_history` entry: `{"role", "round", "content"}`. -/
structure DebateEntry where
  role : String
  round : RoundTag
  content : AgentAnalysis
deriving DecidableEq, Repr

inductive Phase where
  | initialized
  | fetching
  | bull_analyzing
  | bear_analyzing
  | moderating
  | complete
  | error
deriving DecidableEq, Repr

/-- `DebateState` from `state.py`. -/
structure DebateState where
  ticker : String
  user_query : Option String
  time_horizon : TimeHorizon
  stock_data : Option StockData
  news_items : List NewsItem
  current_round : Nat
  max_rounds : Nat
  bull_analysis : Option AgentAnalysis
  bear_analysis : Option AgentAnalysis
  moderator_analysis : Option AgentAnalysis
  debate_history : List DebateEntry
  phase : Phase
  error : Option String
  stream_updates : List StreamUpdate
deriving DecidableEq, Repr

/-- `create_initial_state` from `state.py`. -/
def create_initial_state (ticker : String) (max_rounds : Nat)
    (user_query : Option String) (time_horizon : TimeHorizon) : DebateState :=
  { ticker := ticker, user_query := user_query, time_horizon := time_horizon,
    stock_data := none, news_items := [], current_round := 1,
    max_rounds := max_rounds, bull_analysis := none, bear_analysis := none,
    moderator_analysis := none, debate_history := [], phase := .initialized,
    error := none, stream_updates := [] }

/-- Python `a or b` on an optional string (`None` and `""` are falsy). -/
def pyOrStr (o : Option String) (d : String) : String :=
  match o with
  | none => d
  | some s => if s ≠ "" then s else d

/-- The external collaborators the graph nodes call: the quote fetcher
(`get_stock_data`), the news fetch-and-filter (`search_news` applied to the
live search results), the three persona invocations (`BullAgent.analyze`,
`BearAgent.analyze`, `ModeratorAgent.synthesize` — LLM calls ending in the
`_parse_result` functions modeled above), and the summary stage's update
batch.  Each is a total function: per spec §4.1 persona invocation always
returns an `AgentAnalysis` (C4 records where the code violates this). -/
structure Oracles where
  fetchStock : String → Option StockData
  fetchNews : String → Option String → List NewsItem
  bullAnalyze : Option StockData → List NewsItem → TimeHorizon →
    Option AgentAnalysis → Nat → AgentAnalysis
  bearAnalyze : Option StockData → List NewsItem → TimeHorizon →
    Option AgentAnalysis → Nat → AgentAnalysis
  moderatorSynthesize : Option StockData → Option AgentAnalysis →
    Option AgentAnalysis → TimeHorizon → List DebateEntry → AgentAnalysis
  summaryUpdates : Option StockData → List NewsItem → List StreamUpdate

/-- `fetch_data_node` from `nodes.py`. -/
def fetch_data_node (o : Oracles) (state : DebateState) : DebateState :=
  match o.fetchStock state.ticker with
  | none =>
    { state with
      phase := .error,
      error := some ("Failed to fetch data for ticker: " ++ state.ticker),
      stream_updates := [
        { type := "error",
          error := some ("Failed to fetch data for ticker: " ++ state.ticker) }] }
  | some stock_data =>
    { state with
      stock_data := some stock_data,
      news_items := o.fetchNews state.ticker stock_data.company_name,
      phase := .bull_analyzing,
      stream_updates := [
        { type := "data_fetched",
          stock_data := some stock_data,
          news_items := some (o.fetchNews state.ticker stock_data.company_name),
          message := some ("Fetched data for " ++
            pyOrStr stock_data.company_name state.ticker) }] }

/-- Modelled from the spec: `summary_node` is imported by `builder.py`
from `nodes.py` but absent from the sources under `src/`.  Spec §1/§2
place a summary stage between data fetch and the bull turn that produces a
market + stock context overview for streaming consumers; it runs the
auxiliary summary persona and emits its update batch, leaving the debate
flow fields (round counters, phase, analysis slots, history, error)
unchanged. -/
def summary_node (o : Oracles) (state : DebateState) : DebateState :=
  { state with stream_updates := o.summaryUpdates state.stock_data state.news_items }

/-- `bull_analysis_node` from `nodes.py`. -/
def bull_analysis_node (o : Oracles) (state : DebateState) : DebateState :=
  let bear_rebuttal :=
    if state.current_round > 1 && state.bear_analysis.isSome then state.bear_analysis
    else none
  let analysis := o.bullAnalyze state.stock_data state.news_items state.time_horizon
    bear_rebuttal state.current_round
  { state with
    bull_analysis := some analysis,
    debate_history := state.debate_history ++
      [{ role := "bull", round := .num state.current_round, content := analysis }],
    phase := .bear_analyzing,
    stream_updates := [
      { type := "agent_start", agent := some "bull",
        round_number := some state.current_round,
        message := some "Bull agent analyzing..." },
      { type := "agent_response", agent := some "bull", analysis := some analysis,
        round_number := some state.current_round }] }

/-- `bear_analysis_node` from `nodes.py`: decides the next phase from the
pre-increment `current_round` and, when looping, increments the counter
and emits a `round_complete` update. -/
def bear_analysis_node (o : Oracles) (state : DebateState) : DebateState :=
  let analysis := o.bearAnalyze state.stock_data state.news_items state.time_horizon
    state.bull_analysis state.current_round
  let entry : DebateEntry :=
    { role := "bear", round := .num state.current_round, content := analysis }
  let su : List StreamUpdate := [
    { type := "agent_start", agent := some "bear",
      round_number := some state.current_round,
      message := some "Bear agent analyzing..." },
    { type := "agent_response", agent := some "bear", analysis := some analysis,
      round_number := some state.current_round }]
  if state.current_round ≥ state.max_rounds then
    { state with
      bear_analysis := some analysis,
      debate_history := state.debate_history ++ [entry],
      phase := .moderating, stream_updates := su }
  else
    { state with
      bear_analysis := some analysis,
      debate_history := state.debate_history ++ [entry],
      phase := .bull_analyzing,
      current_round := state.current_round + 1,
      stream_updates := su ++ [
        { type := "round_complete",
          round_number := some state.current_round,
          message := some ("Round " ++ toString state.current_round ++
            " complete. Starting round " ++ toString (state.current_round + 1) ++ "...") }] }

/-- `moderator_node` from `nodes.py` (`f"Verdict: {analysis.recommendation}"`
renders `None` for an absent recommendation). -/
def moderator_node (o : Oracles) (state : DebateState) : DebateState :=
  let analysis := o.moderatorSynthesize state.stock_data state.bull_analysis
    state.bear_analysis state.time_horizon state.debate_history
  { state with
    moderator_analysis := some analysis,
    debate_history := state.debate_history ++
      [{ role := "moderator", round := .final, content := analysis }],
    phase := .complete,
    stream_updates := [
      { type := "agent_start", agent := some "moderator",
        message := some "Moderator synthesizing verdict..." },
      { type := "agent_response", agent := some "moderator",
        analysis := some analysis,
        message := some ("Verdict: " ++
          (match analysis.recommendation with | some r => r | none => "None")) },
      { type := "complete", message := some "Debate complete" }] }

/-- `error_handler_node` from `nodes.py` (`state.get("error", ...)` finds
the key present, so the update carries `state.error` itself). -/
def error_handler_node (state : DebateState) : DebateState :=
  { state with
    phase := .error,
    stream_updates := [
      { type := "error",
        error := match state.error with
                 | some e => some e
                 | none => some "Unknown error occurred" }] }

/-- The graph's node set (`builder.py`). -/
inductive Node where
  | fetch_data
  | summary
  | bull_analysis
  | bear_analysis
  | moderator
  | error_handler
deriving DecidableEq, Repr

/-- `route_after_fetch` from `edges.py`. -/
def route_after_fetch (state : DebateState) : Node :=
  if optStrTruthy state.error || state.stock_data.isNone then .error_handler
  else .summary

/-- `route_after_bear` from `edges.py`. -/
def route_after_bear (state : DebateState) : Node :=
  if state.current_round < state.max_rounds then .bull_analysis else .moderator

def execNode (o : Oracles) : Node → DebateState → DebateState
  | .fetch_data, st => fetch_data_node o st
  | .summary, st => summary_node o st
  | .bull_analysis, st => bull_analysis_node o st
  | .bear_analysis, st => bear_analysis_node o st
  | .moderator, st => moderator_node o st
  | .error_handler, st => error_handler_node st

/-- The edge map of `build_debate_graph`; conditional edges receive the
post-node state; `none` is `END`. -/
def nextNode : Node → DebateState → Option Node
  | .fetch_data, st => some (route_after_fetch st)
  | .summary, _ => some .bull_analysis
  | .bull_analysis, _ => some .bear_analysis
  | .bear_analysis, st => some (route_after_bear st)
  | .moderator, _ => none
  | .error_handler, _ => none

/-- Drive the compiled graph from a node: returns the final state, the
executed-node trace, and the concatenation of the per-node
`stream_updates` batches (the event stream a streaming consumer sees). -/
def runAux (o : Oracles) : Nat → Node → DebateState →
    DebateState × List Node × List StreamUpdate
  | 0, _, st => (st, [], [])
  | n + 1, nd, st =>
    let st' := execNode o nd st
    match nextNode nd st' with
    | none => (st', [nd], st'.stream_updates)
    | some nd' =>
      let r := runAux o n nd' st'
      (r.1, nd :: r.2.1, st'.stream_updates ++ r.2.2)

/-- `debate_graph.ainvoke(create_initial_state(...))`: fuel 20 covers the
longest possible run (max_rounds ≤ 3 gives at most 9 node executions). -/
def runDebate (o : Oracles) (ticker : String) (max_rounds : Nat)
    (user_query : Option String) (time_horizon : TimeHorizon) :
    DebateState × List Node × List StreamUpdate :=
  runAux o 20 .fetch_data (create_initial_state ticker max_rounds user_query time_horizon)

/-! ## `api/routes/analysis.py`: the aggregating endpoint -/

/-- `AnalyzeRequest` from `api/schemas/request.py` (the schema validates
`max_rounds ∈ [1,3]` and `exchange ∈ {NSE, BSE}`; theorems carry those as
hypotheses). -/
structure AnalyzeRequest where
  ticker : String
  exchange : String := "NSE"
  max_rounds : Nat := 1
  time_horizon : TimeHorizon := .medium_term
  user_query : Option String := none
deriving DecidableEq, Repr

/-- The parts of `DebateResponse` the claims speak about. -/
structure DebateResponse where
  ticker : String
  verdict : String
  total_rounds : Nat
  bull_analysis : AgentAnalysis
  bear_analysis : AgentAnalysis
  moderator_analysis : AgentAnalysis
deriving DecidableEq, Repr

inductive ApiResult where
  | ok (resp : DebateResponse)
  | httpError (code : Nat) (detail : String)
deriving DecidableEq, Repr

/-- `analyze_stock` from `analysis.py`: format the ticker, run the graph
to completion, fail with 500 when the final state carries a truthy error
or an empty moderator slot, otherwise assemble the composite response
(`verdict = moderator.recommendation or "HOLD"`,
`total_rounds = final current_round`).  Reading `.summary` on an empty
bull/bear slot would raise and be converted to a 500 by the
`except Exception` handler — the last branch, unreachable from the graph
(proved in C8). -/
def analyze_stock (o : Oracles) (req : AnalyzeRequest) : ApiResult :=
  let ticker := format_ticker req.ticker req.exchange
  let final := (runDebate o ticker req.max_rounds req.user_query req.time_horizon).1
  if optStrTruthy final.error then .httpError 500 (final.error.getD "")
  else
    match final.moderator_analysis with
    | none => .httpError 500 "Debate did not complete"
    | some moderator =>
      match final.stock_data, final.bull_analysis, final.bear_analysis with
      | some _, some bull, some bear =>
        .ok { ticker := ticker,
              verdict := pyOrStr moderator.recommendation "HOLD",
              total_rounds := final.current_round,
              bull_analysis := bull, bear_analysis := bear,
              moderator_analysis := moderator }
      | _, _, _ => .httpError 500 "AttributeError"

/-- A dummy stock snapshot for concrete runs. -/
def sdEx : StockData := { ticker := "T.NS", current_price := 100 }

/-- A dummy analysis produced by the concrete persona oracles. -/
def mkAnalysis (t : AgentType) (r : Nat) : AgentAnalysis :=
  { agent_type := t, summary := "s", arguments := [], recommendation := none,
    confidence_score := 1, sources := [], timestamp := r }

/-- A concrete oracle with a successful fetch. -/
def okOracle : Oracles :=
  { fetchStock := fun _ => some sdEx,
    fetchNews := fun _ _ => [],
    bullAnalyze := fun _ _ _ _ r => mkAnalysis .bull r,
    bearAnalyze := fun _ _ _ _ r => mkAnalysis .bear r,
    moderatorSynthesize := fun _ _ _ _ _ =>
      { mkAnalysis .moderator 0 with recommendation := some "MIXED SIGNALS" },
    summaryUpdates := fun _ _ => [{ type := "summary" }] }

/-- A concrete oracle whose quote fetch fails. -/
def failOracle : Oracles :=
  { okOracle with fetchStock := fun _ => none }

/-- The error update both the fetch node and the error handler emit when
the quote fetch fails. -/
def fetchErrUpd (ticker : String) : StreamUpdate :=
  { type := "error", error := some ("Failed to fetch data for ticker: " ++ ticker) }

/-! ## `services/cache_service.py`: the bulk-quote cache

`TickerTapeCache.get_ticker_tape_data` holds `self._lock` for its entire
body, so callers execute the body under mutual exclusion: any concurrent
arrival order is equivalent to running the bodies one after the other in
lock-acquisition order.  The model below is that serialized execution.
`datetime.utcnow()` is the caller-supplied `now` in seconds;
`_fetch_stock_data` (a network call per symbol, `None` on failure) is the
`fetchSym` parameter, and one bulk refresh — the gather over all 50
symbols — counts as one fetch cycle. -/

/-- One entry of the ticker-tape aggregate. -/
structure TickerEntry where
  symbol : String
  price : Rat
  change : Rat
  name : String
deriving DecidableEq, Repr

/-- The single cache slot's value: `{"tickers", "count", "cached_at"}`. -/
structure TickerTapeData where
  tickers : List TickerEntry
  count : Nat
  cached_at : Int
deriving DecidableEq, Repr

/-- The cache's mutable fields (`_cache`, `_last_updated`). -/
structure CacheState where
  cache : Option TickerTapeData := none
  last_updated : Option Int := none
deriving DecidableEq, Repr

def nifty_50_symbols : List String :=
  ["RELIANCE", "TCS", "HDFCBANK", "INFY", "ICICIBANK",
   "HINDUNILVR", "SBIN", "BHARTIARTL", "KOTAKBANK", "ITC",
   "LT", "AXISBANK", "ASIANPAINT", "MARUTI", "TATASTEEL",
   "BAJFINANCE", "HCLTECH", "WIPRO", "SUNPHARMA", "TITAN",
   "ULTRACEMCO", "NESTLEIND", "POWERGRID", "NTPC", "TECHM",
   "ONGC", "JSWSTEEL", "TATAMOTORS", "M&M", "ADANIENT",
   "COALINDIA", "BAJAJFINSV", "GRASIM", "DIVISLAB", "DRREDDY",
   "BRITANNIA", "CIPLA", "EICHERMOT", "APOLLOHOSP", "TATACONSUM",
   "HINDALCO", "HEROMOTOCO", "BPCL", "INDUSINDBK", "SBILIFE",
   "UPL", "ADANIPORTS", "HDFCLIFE", "BAJAJ-AUTO", "SHREECEM"]

/-- `timedelta(minutes=5)` in seconds. -/
def cache_ttl_seconds : Int := 5 * 60

/-- The full bulk refresh: fetch all 50 symbols, drop the failures,
store the aggregate with the current time. -/
def refreshCache (fetchSym : String → Option TickerEntry) (now : Int) :
    TickerTapeData × CacheState × Nat :=
  let ticker_data := nifty_50_symbols.filterMap fetchSym
  let data : TickerTapeData :=
    { tickers := ticker_data, count := ticker_data.length, cached_at := now }
  (data, { cache := some data, last_updated := some now }, 1)

/-- One serialized call of `get_ticker_tape_data`: return the cached value
when `_is_valid()` (both fields set and `now - last_updated < ttl`), else
perform one bulk-refresh cycle.  The third component counts the refresh
cycles the call performed. -/
def get_ticker_tape_data (fetchSym : String → Option TickerEntry) (now : Int)
    (st : CacheState) : TickerTapeData × CacheState × Nat :=
  match st.cache, st.last_updated with
  | some c, some lu =>
    if now - lu < cache_ttl_seconds then (c, st, 0)
    else refreshCache fetchSym now
  | _, _ => refreshCache fetchSym now

/-! ### Character-level lemmas -/

theorem char_toNat_ofNat_of_lt {n : Nat} (h : n < 55296) : (Char.ofNat n).toNat = n := by
  have hv : Nat.isValidChar n := Or.inl h
  rw [Char.ofNat, dif_pos hv]
  simp [Char.ofNatAux, Char.toNat, UInt32.toNat]

theorem char_eq_of_toNat_eq {a b : Char} (h : a.toNat = b.toNat) : a = b := by
  have := congrArg Char.ofNat h
  simpa using this

theorem toUpper_eq (c : Char) :
    Char.toUpper c = if 97 ≤ c.toNat ∧ c.toNat ≤ 122 then Char.ofNat (c.toNat - 32) else c := by
  simp [Char.toUpper, ge_iff_le]

theorem toUpper_toNat (c : Char) :
    (Char.toUpper c).toNat = if 97 ≤ c.toNat ∧ c.toNat ≤ 122 then c.toNat - 32 else c.toNat := by
  rw [toUpper_eq]
  split
  · rename_i h
    exact char_toNat_ofNat_of_lt (by omega)
  · rfl

theorem toUpper_idem (c : Char) : Char.toUpper (Char.toUpper c) = Char.toUpper c := by
  apply char_eq_of_toNat_eq
  rw [toUpper_toNat (Char.toUpper c), toUpper_toNat c]
  split_ifs <;> omega

theorem isWhitespace_eq_decide (c : Char) :
    c.isWhitespace =
      (decide (c.toNat = 32) || decide (c.toNat = 9) ||
       decide (c.toNat = 13) || decide (c.toNat = 10)) := by
  have conv1 : ∀ d : Char, decide (c = d) = decide (c.toNat = d.toNat) := by
    intro d
    rw [decide_eq_decide]
    exact ⟨fun h => by rw [h], fun h => char_eq_of_toNat_eq h⟩
  simp only [Char.isWhitespace, conv1]
  rfl

theorem isWhitespace_toUpper (c : Char) :
    (Char.toUpper c).isWhitespace = c.isWhitespace := by
  rw [isWhitespace_eq_decide, isWhitespace_eq_decide, toUpper_toNat]
  split_ifs with h
  · have h32 : ¬ (c.toNat - 32 = 32) := by omega
    have h9 : ¬ (c.toNat - 32 = 9) := by omega
    have h13 : ¬ (c.toNat - 32 = 13) := by omega
    have h10 : ¬ (c.toNat - 32 = 10) := by omega
    have g32 : ¬ (c.toNat = 32) := by omega
    have g9 : ¬ (c.toNat = 9) := by omega
    have g13 : ¬ (c.toNat = 13) := by omega
    have g10 : ¬ (c.toNat = 10) := by omega
    simp [h32, h9, h13, h10, g32, g9, g13, g10]
  · rfl

/-! ### Structural lemmas for `format_ticker` -/

theorem map_toUpper_idem (l : List Char) :
    (l.map Char.toUpper).map Char.toUpper = l.map Char.toUpper := by
  simp [List.map_map, Function.comp_def, toUpper_idem]

theorem stripLeftL_map_toUpper (l : List Char) :
    stripLeftL (l.map Char.toUpper) = (stripLeftL l).map Char.toUpper := by
  unfold stripLeftL
  induction l with
  | nil => simp
  | cons c rest ih =>
    by_cases h : c.isWhitespace
    · simp [List.dropWhile_cons, h, isWhitespace_toUpper, ih]
    · simp [List.dropWhile_cons, h, isWhitespace_toUpper]

theorem stripRightL_map_toUpper (l : List Char) :
    stripRightL (l.map Char.toUpper) = (stripRightL l).map Char.toUpper := by
  unfold stripRightL
  rw [← List.map_reverse]
  have : (l.reverse.map Char.toUpper).dropWhile Char.isWhitespace
      = (l.reverse.dropWhile Char.isWhitespace).map Char.toUpper := by
    simpa [stripLeftL] using stripLeftL_map_toUpper l.reverse
  rw [this, List.map_reverse]

/-- Uppercasing and stripping commute, hence the claim's trim-then-uppercase
order agrees with the code's uppercase-then-trim order. -/
theorem pyStrip_pyUpper (s : String) : pyStrip (pyUpper s) = pyUpper (pyStrip s) := by
  simp [pyStrip, pyUpper, stripLeftL_map_toUpper, stripRightL_map_toUpper]

theorem stripRightL_eq_rdropWhile (l : List Char) :
    stripRightL l = l.rdropWhile Char.isWhitespace := rfl

theorem format_ticker_eq (t e : String) : format_ticker t e = ftCore t ++ ftSuffix e := rfl

theorem ftSuffix_cases (e : String) : ftSuffix e = ".NS" ∨ ftSuffix e = ".BO" := by
  unfold ftSuffix
  split
  · exact Or.inl rfl
  · exact Or.inr rfl

theorem mem_pyStrip {c : Char} {s : String} (h : c ∈ (pyStrip s).data) : c ∈ s.data := by
  have h1 : (pyStrip s).data = stripRightL (stripLeftL s.data) := rfl
  rw [h1, stripRightL_eq_rdropWhile] at h
  have h2 : c ∈ stripLeftL s.data :=
    (List.rdropWhile_prefix Char.isWhitespace (stripLeftL s.data)).subset h
  exact (List.dropWhile_sublist _).subset h2

theorem ftCore_upper_fixed (t : String) : ∀ c ∈ (ftCore t).data, Char.toUpper c = c := by
  intro c hc
  have hmem : c ∈ (pyStrip (pyUpper t)).data := by
    unfold ftCore at hc
    split at hc
    · exact List.take_subset _ _ hc
    · exact hc
  have : c ∈ (pyUpper t).data := mem_pyStrip hmem
  obtain ⟨a, _, rfl⟩ := List.mem_map.1 this
  exact toUpper_idem a

theorem ftSuffix_upper_fixed (e : String) : ∀ c ∈ (ftSuffix e).data, Char.toUpper c = c := by
  intro c hc
  rcases ftSuffix_cases e with h | h <;> rw [h] at hc
  · have : c = '.' ∨ c = 'N' ∨ c = 'S' := by simpa using hc
    rcases this with rfl | rfl | rfl <;> decide
  · have : c = '.' ∨ c = 'B' ∨ c = 'O' := by simpa using hc
    rcases this with rfl | rfl | rfl <;> decide

theorem pyUpper_format_fixed (t e : String) :
    pyUpper (ftCore t ++ ftSuffix e) = ftCore t ++ ftSuffix e := by
  apply String.ext
  show ((ftCore t ++ ftSuffix e).data).map Char.toUpper = (ftCore t ++ ftSuffix e).data
  rw [String.data_append, List.map_append]
  have h1 : (ftCore t).data.map Char.toUpper = (ftCore t).data := by
    rw [List.map_congr_left (g := id) (ftCore_upper_fixed t), List.map_id]
  have h2 : (ftSuffix e).data.map Char.toUpper = (ftSuffix e).data := by
    rw [List.map_congr_left (g := id) (ftSuffix_upper_fixed e), List.map_id]
  rw [h1, h2]

theorem head?_of_leading {α : Type} {l₁ l₂ : List α} {c : α} (hp : l₁ <+: l₂)
    (h : l₁.head? = some c) : l₂.head? = some c := by
  obtain ⟨tl, rfl⟩ := hp
  cases l₁ with
  | nil => simp at h
  | cons a l => simpa using h

theorem head_stripLeftL_not_ws {l : List Char} {c : Char}
    (h : (stripLeftL l).head? = some c) : c.isWhitespace = false := by
  unfold stripLeftL at h
  induction l with
  | nil => simp at h
  | cons a l ih =>
    rw [List.dropWhile_cons] at h
    split at h
    · exact ih h
    · rename_i ha
      simp only [List.head?_cons, Option.some.injEq] at h
      subst h
      simpa using ha

theorem head_pyStrip_not_ws {s : String} {c : Char} (h : (pyStrip s).data.head? = some c) :
    c.isWhitespace = false := by
  have h1 : (pyStrip s).data = (stripLeftL s.data).rdropWhile Char.isWhitespace := rfl
  rw [h1] at h
  exact head_stripLeftL_not_ws (head?_of_leading (List.rdropWhile_prefix _ _) h)

theorem head_ftCore_not_ws {t : String} {c : Char} (h : (ftCore t).data.head? = some c) :
    c.isWhitespace = false := by
  apply head_pyStrip_not_ws (s := pyUpper t)
  unfold ftCore at h
  split at h
  · exact head?_of_leading (List.take_prefix _ _) h
  · exact h

theorem dropWhile_ws_eq_self_of_head {l : List Char}
    (h : ∀ c, l.head? = some c → c.isWhitespace = false) :
    l.dropWhile Char.isWhitespace = l := by
  cases l with
  | nil => rfl
  | cons a l =>
    rw [List.dropWhile_cons, if_neg]
    simp [h a rfl]

theorem stripLeftL_format (t e : String) :
    stripLeftL ((ftCore t ++ ftSuffix e).data) = (ftCore t ++ ftSuffix e).data := by
  apply dropWhile_ws_eq_self_of_head
  intro c hc
  rw [String.data_append, List.head?_append] at hc
  rcases hcore : (ftCore t).data.head? with _ | a
  · rw [hcore] at hc
    simp only [Option.none_or] at hc
    rcases ftSuffix_cases e with h | h <;> rw [h] at hc <;>
      (have : c = '.' := by simpa using hc.symm) <;> (subst this; decide)
  · rw [hcore] at hc
    simp only [Option.or_some, Option.some.injEq] at hc
    subst hc
    exact head_ftCore_not_ws hcore

theorem stripRightL_format (t e : String) :
    stripRightL ((ftCore t ++ ftSuffix e).data) = (ftCore t ++ ftSuffix e).data := by
  rw [stripRightL_eq_rdropWhile, String.data_append]
  rcases ftSuffix_cases e with h | h <;> rw [h]
  · have hsp : (".NS" : String).data = ['.', 'N'] ++ ['S'] := rfl
    rw [hsp, ← List.append_assoc]
    exact List.rdropWhile_concat_neg _ _ 'S' (by decide)
  · have hsp : (".BO" : String).data = ['.', 'B'] ++ ['O'] := rfl
    rw [hsp, ← List.append_assoc]
    exact List.rdropWhile_concat_neg _ _ 'O' (by decide)

theorem pyStrip_format_fixed (t e : String) :
    pyStrip (ftCore t ++ ftSuffix e) = ftCore t ++ ftSuffix e := by
  apply String.ext
  show stripRightL (stripLeftL ((ftCore t ++ ftSuffix e).data)) = (ftCore t ++ ftSuffix e).data
  rw [stripLeftL_format, stripRightL_format]

theorem pyEndsWith_format (t e : String) :
    (pyEndsWith (ftCore t ++ ftSuffix e) ".NS" || pyEndsWith (ftCore t ++ ftSuffix e) ".BO")
      = true := by
  rcases ftSuffix_cases e with h | h <;> rw [h]
  · have : pyEndsWith (ftCore t ++ ".NS") ".NS" = true := by
      unfold pyEndsWith
      rw [List.isSuffixOf_iff_suffix, String.data_append]
      exact List.suffix_append _ _
    rw [this, Bool.true_or]
  · have : pyEndsWith (ftCore t ++ ".BO") ".BO" = true := by
      unfold pyEndsWith
      rw [List.isSuffixOf_iff_suffix, String.data_append]
      exact List.suffix_append _ _
    rw [this, Bool.or_true]

theorem pyDropRight_format (t e : String) :
    pyDropRight (ftCore t ++ ftSuffix e) 3 = ftCore t := by
  apply String.ext
  show ((ftCore t ++ ftSuffix e).data).take ((ftCore t ++ ftSuffix e).data.length - 3)
      = (ftCore t).data
  rw [String.data_append]
  have hlen : (ftSuffix e).data.length = 3 := by
    rcases ftSuffix_cases e with h | h <;> rw [h] <;> rfl
  rw [List.length_append, hlen]
  exact List.take_left' (by omega)

theorem format_ticker_idem (t e : String) :
    format_ticker (format_ticker t e) e = format_ticker t e := by
  rw [format_ticker_eq t e]
  show (let u := pyStrip (pyUpper (ftCore t ++ ftSuffix e))
        let u := if pyEndsWith u ".NS" || pyEndsWith u ".BO" then pyDropRight u 3 else u
        let suffix := if pyUpper e = "NSE" then ".NS" else ".BO"
        u ++ suffix) = ftCore t ++ ftSuffix e
  simp only [pyUpper_format_fixed, pyStrip_format_fixed, pyEndsWith_format, if_true,
    pyDropRight_format]
  rfl

theorem format_ticker_eq_claim (t e : String) : format_ticker t e = claimFormatTicker t e := by
  simp only [format_ticker, claimFormatTicker, pyStrip_pyUpper]

/-- C10: `format_ticker` is normalizing and idempotent. For every ticker
string `t` and exchange string `e`, `format_ticker t e` equals the
uppercased, whitespace-trimmed `t` with at most one trailing `.NS`/`.BO`
removed, followed by `.NS` exactly when `e` uppercases to `"NSE"` and `.BO`
otherwise; the result always ends in `.NS` or `.BO`; and
`format_ticker (format_ticker t e) e = format_ticker t e`. -/
theorem C10_format_ticker_normalizing_idempotent (t e : String) :
    format_ticker t e = claimFormatTicker t e ∧
    (pyEndsWith (format_ticker t e) ".NS" = true ∨
      pyEndsWith (format_ticker t e) ".BO" = true) ∧
    format_ticker (format_ticker t e) e = format_ticker t e := by
  refine ⟨format_ticker_eq_claim t e, ?_, format_ticker_idem t e⟩
  have h := pyEndsWith_format t e
  rw [format_ticker_eq]
  exact Bool.or_eq_true_iff.mp h

/-! ### News pipeline lemmas -/

theorem is_recent_eq (pd : String → Option Int) (now : Int) (item : RawNewsItem) :
    is_recent_news pd now (pyGetStr item.date) = !(claimRecencyDropped pd now item) := by
  unfold is_recent_news claimRecencyDropped
  by_cases hd : pyGetStr item.date = ""
  · rw [if_pos hd]
    have hd' : decide (pyGetStr item.date = "") = true := decide_eq_true hd
    rw [hd', Bool.true_or, Bool.not_true]
  · rw [if_neg hd]
    have hd' : decide (pyGetStr item.date = "") = false :=
      decide_eq_false hd
    rw [hd', Bool.false_or]
    cases hp : pd (pyGetStr item.date) with
    | none => rfl
    | some d =>
      show decide ((now - d).fdiv 86400 ≤ MAX_NEWS_AGE_DAYS)
          = !(decide (MAX_NEWS_AGE_DAYS < (now - d).fdiv 86400))
      by_cases hle : (now - d).fdiv 86400 ≤ MAX_NEWS_AGE_DAYS
      · rw [decide_eq_true hle, decide_eq_false (not_lt.mpr hle), Bool.not_false]
      · rw [decide_eq_false hle, decide_eq_true (not_le.mp hle), Bool.not_true]

theorem is_relevant_eq (item : RawNewsItem) (t : String) (cn : Option String) :
    is_relevant_news item t cn = claimRelevantKeep cleanTicker item t cn := by
  unfold is_relevant_news claimRelevantKeep
  dsimp only
  by_cases hA : pyContains (combinedText item) (cleanTicker t) = true
  · rw [if_pos hA, hA, Bool.true_or]
  · have hA' : pyContains (combinedText item) (cleanTicker t) = false :=
      Bool.not_eq_true _ ▸ Bool.eq_false_iff.mpr (fun h => hA h)
    rw [if_neg hA, hA', Bool.false_or]
    cases cn with
    | none => rfl
    | some c =>
      by_cases hc : c = ""
      · subst hc
        rfl
      · have hc' : optStrTruthy (some c) = true := by
          simp [optStrTruthy, strTruthy, hc]
        dsimp only
        rw [hc', Bool.not_true, if_neg Bool.false_ne_true,
          show pyGetStr (some c) = c from rfl]
        by_cases hB : (strTruthy (removeCompanySuffixes (pyLower c)) &&
            pyContains (combinedText item) (removeCompanySuffixes (pyLower c))) = true
        · rw [if_pos hB, hB, Bool.true_or]
        · have hB' : (strTruthy (removeCompanySuffixes (pyLower c)) &&
              pyContains (combinedText item) (removeCompanySuffixes (pyLower c))) = false :=
            Bool.eq_false_iff.mpr (fun h => hB h)
          rw [if_neg hB, hB', Bool.false_or]
          cases hsplit : pySplitWS (removeCompanySuffixes (pyLower c)) with
          | nil => rfl
          | cons w ws =>
            dsimp only
            by_cases hC : (decide (w.length > 3) && !(generic_words.contains w)) = true
            · rw [if_pos hC, hC, Bool.true_and]
            · have hC' : (decide (w.length > 3) && !(generic_words.contains w)) = false :=
                Bool.eq_false_iff.mpr (fun h => hC h)
              rw [if_neg hC, hC', Bool.false_and]

theorem search_news_eq_amended (pd : String → Option Int) (now : Int)
    (raw : List RawNewsItem) (mr : Nat) (t cn : Option String) :
    search_news pd now raw mr t cn = amendedSearchNews pd now raw mr t cn := by
  unfold search_news amendedSearchNews claimSearchNewsWith
  have h1 : raw.filter (fun item => is_recent_news pd now (pyGetStr item.date))
      = raw.filter (fun item => !(claimRecencyDropped pd now item)) :=
    List.filter_congr (fun item _ => is_recent_eq pd now item)
  rw [h1]
  by_cases ht : optStrTruthy t
  · simp only [ht, if_true]
    have h2 := List.filter_congr
      (l := raw.filter (fun item => !(claimRecencyDropped pd now item)))
      (fun item _ => is_relevant_eq item (pyGetStr t) cn)
    rw [h2]
  · simp only [ht, if_false, Bool.false_eq_true]

/-- C6 (amended): the news pipeline equals the claim's description — drop
stale, undated or unparseable-dated items, then (when a ticker is supplied)
drop items relevant to neither the cleaned ticker (the source removes every
`.NS`/`.BO` occurrence) nor the cleaned company name nor its first
significant word, then truncate, preserving order; an item dated 61 days
before now is dropped and one dated 59 days before is kept, and empty or
unparseable dates are dropped. -/
theorem C6_search_news_filters (pd : String → Option Int) (now : Int)
    (raw : List RawNewsItem) (mr : Nat) (t cn : Option String) :
    search_news pd now raw mr t cn = amendedSearchNews pd now raw mr t cn ∧
    (∀ ds, ds ≠ "" → pd ds = some (now - 61 * 86400) →
      is_recent_news pd now ds = false) ∧
    (∀ ds, ds ≠ "" → pd ds = some (now - 59 * 86400) →
      is_recent_news pd now ds = true) ∧
    (∀ ds, ds ≠ "" → pd ds = none → is_recent_news pd now ds = false) ∧
    is_recent_news pd now "" = false := by
  refine ⟨search_news_eq_amended pd now raw mr t cn, ?_, ?_, ?_, rfl⟩
  · intro ds hne hp
    unfold is_recent_news
    rw [if_neg hne, hp]
    show decide ((now - (now - 61 * 86400)).fdiv 86400 ≤ MAX_NEWS_AGE_DAYS) = false
    have h : now - (now - 61 * 86400) = 61 * 86400 := by ring
    rw [h]
    decide
  · intro ds hne hp
    unfold is_recent_news
    rw [if_neg hne, hp]
    show decide ((now - (now - 59 * 86400)).fdiv 86400 ≤ MAX_NEWS_AGE_DAYS) = true
    have h : now - (now - 59 * 86400) = 59 * 86400 := by ring
    rw [h]
    decide
  · intro ds hne hp
    unfold is_recent_news
    rw [if_neg hne, hp]

/-- Witness for C6: the theorem applied at a concrete date parser with one
date 61 days old, one 59 days old, and one unparseable. -/
theorem C6_search_news_filters_witness :
    is_recent_news c6pd 0 "old" = false ∧ is_recent_news c6pd 0 "new" = true ∧
    is_recent_news c6pd 0 "weird" = false ∧ is_recent_news c6pd 0 "" = false := by
  obtain ⟨-, h61, h59, hnone, hempty⟩ := C6_search_news_filters c6pd 0 [] 0 none none
  exact ⟨h61 "old" (by decide) (by decide), h59 "new" (by decide) (by decide),
    hnone "weird" (by decide) (by decide), hempty⟩

/-- Counterexample for C6 as stated: for ticker `"AB.NS.X.NS"` the source
removes every `.NS` occurrence (clean ticker `"ab.x"`), while the claim's
suffix-stripped ticker is `"ab.ns.x"`; an item mentioning only `"ab.x"` is
kept by the code but dropped under the claim's wording. -/
theorem C6_counterexample :
    search_news c6pd2 0 [c6item] 10 (some "AB.NS.X.NS") none ≠
      claimSearchNews c6pd2 0 [c6item] 10 (some "AB.NS.X.NS") none := by
  decide

/-! ### Source citation lemmas -/

theorem string_append_ne_empty {s : String} (t : String) (h : s ≠ "") : s ++ t ≠ "" := by
  intro he
  apply h
  have hd : (s ++ t).data = ([] : List Char) := by
    rw [he]
  rw [String.data_append] at hd
  have : s.data = [] := (List.append_eq_nil.mp hd).1
  apply String.ext
  rw [this]

theorem truthyUrl_yahoo (sd : StockData) :
    truthyUrl (yahooSource sd) = some ("https://finance.yahoo.com/quote/" ++ sd.ticker) := by
  have hc : optStrTruthy (yahooSource sd).url = true := by
    show optStrTruthy (some ("https://finance.yahoo.com/quote/" ++ sd.ticker)) = true
    simp only [optStrTruthy, strTruthy]
    exact decide_eq_true (string_append_ne_empty sd.ticker (by decide))
  unfold truthyUrl
  rw [if_pos hc]
  rfl

theorem build_sources_aux_eq (items : List NewsItem) (acc : List Source) (seen : List String) :
    build_sources_aux items acc seen =
      acc ++ (dedupByKey NewsItem.source
        (items.filter (fun i => strTruthy i.url && strTruthy i.source)) seen).map
          newsCitation := by
  induction items generalizing acc seen with
  | nil => simp [build_sources_aux, dedupByKey]
  | cons item rest ih =>
    cases hu : strTruthy item.url <;> cases hs : strTruthy item.source <;>
      by_cases hm : item.source ∈ seen <;>
      simp [build_sources_aux, dedupByKey, List.filter_cons, hu, hs, hm, ih,
        List.append_assoc]

theorem build_sources_eq_amended (sd : StockData) (news : List NewsItem) :
    build_sources sd news = amendedBuildSources sd news := by
  unfold build_sources amendedBuildSources
  rw [build_sources_aux_eq]
  simp

theorem combine_sources_aux_eq (rem : List Source) (acc : List Source) (seen : List String)
    (hinv : ∀ u, u ∈ seen ↔ u ∈ acc.filterMap truthyUrl) :
    combine_sources_aux rem acc seen = specCombineAux rem acc := by
  induction rem generalizing acc seen with
  | nil => rfl
  | cons src rest ih =>
    unfold combine_sources_aux specCombineAux
    have hcu : seen.contains (src.url.getD "") =
        ((acc.filterMap truthyUrl).contains (src.url.getD "")) := by
      simp [hinv]
    rw [hcu]
    by_cases hc1 : (optStrTruthy src.url &&
        !((acc.filterMap truthyUrl).contains (src.url.getD ""))) = true
    · rw [if_pos hc1, if_pos hc1]
      apply ih
      intro v
      have h1 : optStrTruthy src.url = true := by
        have h := hc1
        rw [Bool.and_eq_true] at h
        exact h.1
      have hurl : truthyUrl src = some (src.url.getD "") := by
        unfold truthyUrl
        rw [if_pos h1]
      simp [List.mem_append, hinv v, hurl]
    · rw [if_neg hc1, if_neg hc1]
      by_cases hc2 : (!(optStrTruthy src.url) &&
          !((acc.map Source.name).contains src.name)) = true
      · rw [if_pos hc2, if_pos hc2]
        apply ih
        intro v
        have h1 : optStrTruthy src.url = false := by
          have h := hc2
          rw [Bool.and_eq_true] at h
          simpa using h.1
        have hurl : truthyUrl src = none := by
          unfold truthyUrl
          rw [if_neg]
          simp [h1]
        simp [List.mem_append, hinv v, hurl]
      · rw [if_neg hc2, if_neg hc2]
        exact ih acc seen hinv

theorem combine_sources_eq_claim (sd : StockData) (bull bear : AgentAnalysis) :
    combine_sources sd bull bear = claimCombineSources sd bull bear := by
  unfold combine_sources claimCombineSources
  apply combine_sources_aux_eq
  intro u
  simp [truthyUrl_yahoo sd]

theorem specCombineAux_append (rem : List Source) (acc : List Source) :
    ∃ l, specCombineAux rem acc = acc ++ l := by
  induction rem generalizing acc with
  | nil => exact ⟨[], by simp [specCombineAux]⟩
  | cons src rest ih =>
    unfold specCombineAux
    split
    · obtain ⟨l, hl⟩ := ih (acc ++ [src])
      exact ⟨[src] ++ l, by rw [hl, List.append_assoc]⟩
    · split
      · obtain ⟨l, hl⟩ := ih (acc ++ [src])
        exact ⟨[src] ++ l, by rw [hl, List.append_assoc]⟩
      · exact ih acc

/-- C7 (amended): every bull/bear citation list equals the claim's
description with the display-name rule amended for empty titles (the name
is just the source name when the title is empty), the quote-provider
citation comes first, and the moderator's list is the union of bull's and
bear's citations deduplicated by url first and by name for url-less
entries, with the quote-provider citation first. -/
theorem C7_source_citations (sd : StockData) (news : List NewsItem)
    (bull bear : AgentAnalysis) :
    build_sources sd news = amendedBuildSources sd news ∧
    (build_sources sd news).head? = some (yahooSource sd) ∧
    combine_sources sd bull bear = claimCombineSources sd bull bear ∧
    (combine_sources sd bull bear).head? = some (yahooSource sd) := by
  refine ⟨build_sources_eq_amended sd news, ?_, combine_sources_eq_claim sd bull bear, ?_⟩
  · rw [build_sources_eq_amended sd news]
    rfl
  · rw [combine_sources_eq_claim sd bull bear]
    unfold claimCombineSources
    obtain ⟨l, hl⟩ :=
      specCombineAux_append (bull.sources ++ bear.sources) [yahooSource sd]
    rw [hl]
    rfl

/-- Counterexample for C7 as stated: a news item with empty title, truthy
url `"u"` and source `"s"` yields the citation name `"s"`, not the claim's
`"s: "`. -/
theorem C7_counterexample :
    build_sources c7sd [c7item] ≠ claimBuildSources c7sd [c7item] := by
  decide

/-! ### Completion-parsing theorems -/

/-- C4 (code bug): a bull or bear completion whose brace slice parses as
JSON but whose `confidence_score` is JSON `null` makes `_parse_result`
raise — `float(None)` is a `TypeError`, which
`except (json.JSONDecodeError, ValueError, KeyError)` does not catch — so
the invoker does not return the fallback analysis the claim requires. -/
theorem C4_parse_result_null_confidence_raises (prims : PyPrims)
    (h : prims.jsonLoads c4input = some c4json) :
    BullAgent.parse_result prims 0 c4input [] = Except.error PyErr.typeError ∧
    BearAgent.parse_result prims 0 c4input [] = Except.error PyErr.typeError := by
  have hs : jsonSlice c4input = some c4input := by decide
  constructor
  · show parseResultWith extractBull bullFallback prims 0 c4input [] = _
    unfold parseResultWith
    simp only [hs, h]
    rfl
  · show parseResultWith extractBear bearFallback prims 0 c4input [] = _
    unfold parseResultWith
    simp only [hs, h]
    rfl

/-- Witness for C4: concrete primitives whose `json.loads` parses the
failing completion. -/
theorem C4_parse_result_null_confidence_raises_witness :
    BullAgent.parse_result c4prims 0 c4input [] = Except.error PyErr.typeError ∧
    BearAgent.parse_result c4prims 0 c4input [] = Except.error PyErr.typeError :=
  C4_parse_result_null_confidence_raises c4prims rfl

theorem coerce_of_not_valid (fields : List (String × Json))
    (hrec : ∀ s, jsonGet fields "recommendation" = some (Json.str s) →
      s ∉ valid_recommendations) :
    coerceRecommendation ((jsonGet fields "recommendation").getD
      (Json.str "MIXED SIGNALS")) = "MIXED SIGNALS" := by
  cases hgr : jsonGet fields "recommendation" with
  | none => rfl
  | some v =>
    cases v with
    | str s =>
      have hns := hrec s hgr
      show coerceRecommendation (Json.str s) = "MIXED SIGNALS"
      unfold coerceRecommendation
      dsimp only
      simp [hns]
    | null => rfl
    | bool b => rfl
    | num q => rfl
    | arr es => rfl
    | obj fs => rfl

/-- C5: whenever the moderator's `_parse_result` returns an analysis and
the completion's parsed `recommendation` is absent, non-string, or a
string outside the closed 5-value set, the returned recommendation is
`"MIXED SIGNALS"`. -/
theorem C5_moderator_invalid_recommendation_coerced
    (prims : PyPrims) (tNow : Nat) (result : String) (sources : List Source)
    (a : AgentAnalysis)
    (hok : ModeratorAgent.parse_result prims tNow result sources = Except.ok a)
    (hrec : ∀ s, extractedRecommendation prims result = some (Json.str s) →
      s ∉ valid_recommendations) :
    a.recommendation = some "MIXED SIGNALS" := by
  unfold ModeratorAgent.parse_result parseResultWith at hok
  cases hs : jsonSlice result with
  | none =>
    simp only [hs, Except.ok.injEq] at hok
    rw [← hok]
    rfl
  | some slice =>
    simp only [hs] at hok
    cases hl : prims.jsonLoads slice with
    | none =>
      simp only [hl, Except.ok.injEq] at hok
      rw [← hok]
      rfl
    | some data =>
      simp only [hl] at hok
      cases hext : extractModerator prims tNow data sources with
      | error e =>
        simp only [hext] at hok
        cases e with
        | valueError =>
          simp [pyErrCaught] at hok
          subst hok
          rfl
        | typeError => simp [pyErrCaught] at hok
        | attributeError => simp [pyErrCaught] at hok
      | ok a' =>
        simp only [hext, Except.ok.injEq] at hok
        cases data with
        | obj fields =>
          have hrec' : ∀ s, jsonGet fields "recommendation" = some (Json.str s) →
              s ∉ valid_recommendations := by
            intro s hgs
            apply hrec s
            unfold extractedRecommendation
            simp only [hs, hl]
            exact hgs
          unfold extractModerator at hext
          dsimp only at hext
          cases hargs : parseArguments prims.floatOfString
              ((jsonGet fields "arguments").getD (Json.arr [])) with
          | error e =>
            simp only [hargs] at hext
            exact absurd hext (by simp)
          | ok args =>
            simp only [hargs] at hext
            cases hcs : pyFloat prims.floatOfString
                ((jsonGet fields "confidence_score").getD (Json.num (7/10))) with
            | error e =>
              simp only [hcs] at hext
              exact absurd hext (by simp)
            | ok csRaw =>
              simp only [hcs] at hext
              cases hsum : (match jsonGet fields "summary" with
                           | none => Except.ok "Analysis completed."
                           | some v => pyStrField v) with
              | error e =>
                simp only [hsum] at hext
                exact absurd hext (by simp)
              | ok summary =>
                simp only [hsum] at hext
                cases hval : validate01 csRaw with
                | error e =>
                  simp only [hval] at hext
                  exact absurd hext (by simp)
                | ok cs =>
                  simp only [hval] at hext
                  injection hext with hrecord
                  rw [← hok, ← hrecord]
                  show some (coerceRecommendation
                    ((jsonGet fields "recommendation").getD (Json.str "MIXED SIGNALS")))
                    = some "MIXED SIGNALS"
                  rw [coerce_of_not_valid fields hrec']
        | null => exact absurd hext (by simp [extractModerator])
        | bool b => exact absurd hext (by simp [extractModerator])
        | num q => exact absurd hext (by simp [extractModerator])
        | str s => exact absurd hext (by simp [extractModerator])
        | arr es => exact absurd hext (by simp [extractModerator])

/-! ### State-machine run lemmas -/

theorem run_fetch_fail (o : Oracles) (t : String) (mr : Nat) (uq : Option String)
    (th : TimeHorizon) (hf : o.fetchStock t = none) :
    runDebate o t mr uq th =
      ({ create_initial_state t mr uq th with
          phase := .error,
          error := some ("Failed to fetch data for ticker: " ++ t),
          stream_updates := [fetchErrUpd t] },
       [Node.fetch_data, Node.error_handler],
       [fetchErrUpd t, fetchErrUpd t]) := by
  unfold runDebate
  simp [runAux, execNode, nextNode, fetch_data_node, error_handler_node,
    route_after_fetch, hf, create_initial_state, optStrTruthy, fetchErrUpd]

theorem run_fetch_ok (o : Oracles) (t : String) (uq : Option String)
    (th : TimeHorizon) (sd : StockData) (hf : o.fetchStock t = some sd) (mr : Nat)
    (hmr : mr = 1 ∨ mr = 2 ∨ mr = 3) :
    (runDebate o t mr uq th).1.phase = Phase.complete ∧
    (runDebate o t mr uq th).1.error = none ∧
    (runDebate o t mr uq th).1.current_round = mr ∧
    (runDebate o t mr uq th).1.stock_data = some sd ∧
    (runDebate o t mr uq th).1.moderator_analysis.isSome = true ∧
    (runDebate o t mr uq th).1.bull_analysis.isSome = true ∧
    (runDebate o t mr uq th).1.bear_analysis.isSome = true ∧
    (∃ rest, (runDebate o t mr uq th).2.1 =
      Node.fetch_data :: Node.summary :: Node.bull_analysis :: Node.bear_analysis :: rest) ∧
    Node.error_handler ∉ (runDebate o t mr uq th).2.1 := by
  rcases hmr with rfl | rfl | rfl <;>
    (unfold runDebate
     simp [runAux, execNode, nextNode, fetch_data_node, summary_node,
       bull_analysis_node, bear_analysis_node, moderator_node,
       route_after_fetch, route_after_bear, hf, create_initial_state, optStrTruthy])

theorem run_fetch_ok_mod (o : Oracles) (t : String) (uq : Option String)
    (th : TimeHorizon) (sd : StockData) (hf : o.fetchStock t = some sd) (mr : Nat)
    (hmr : mr = 1 ∨ mr = 2 ∨ mr = 3) :
    ∃ a1 a2 a3 a4 a5, (runDebate o t mr uq th).1.moderator_analysis
      = some (o.moderatorSynthesize a1 a2 a3 a4 a5) := by
  rcases hmr with rfl | rfl | rfl <;>
    (unfold runDebate
     simp [runAux, execNode, nextNode, fetch_data_node, summary_node,
       bull_analysis_node, bear_analysis_node, moderator_node,
       route_after_fetch, route_after_bear, hf, create_initial_state, optStrTruthy]
     exact ⟨_, _, _, _, _, rfl⟩)

theorem pyOrStr_eq_getD {o : Option String} (h : o ≠ some "") (d : String) :
    pyOrStr o d = o.getD d := by
  cases o with
  | none => rfl
  | some s =>
    have hs : s ≠ "" := fun hs => h (by rw [hs])
    simp [pyOrStr, hs]

/-- C1 (code bug): with `max_rounds = 2` the bear node increments
`current_round` before the conditional edge re-reads the updated state, so
the router sends execution to the moderator after a single bull/bear pair:
the trace is fetch, summary, bull, bear, moderator — one pair, not two —
although the bear node set `phase = bull_analyzing` and emitted a
`round_complete` update announcing round 2. -/
theorem C1_round_pair_count_bug :
    (runDebate okOracle "T" 2 none TimeHorizon.medium_term).2.1 =
      [Node.fetch_data, Node.summary, Node.bull_analysis, Node.bear_analysis,
        Node.moderator] ∧
    (runDebate okOracle "T" 2 none TimeHorizon.medium_term).2.1.count
      Node.bull_analysis ≠ 2 ∧
    ((runDebate okOracle "T" 2 none TimeHorizon.medium_term).2.2.filter
      (fun u => u.type = "round_complete")).length = 1 := by
  decide

/-- C2 (amended): the topology inserts a summary node between the fetch
and the bull turn — after a successful fetch the executed order is fetch,
summary, bull, bear, …; the error handler runs exactly when the fetch
fails, so the error state is reachable only from fetching. -/
theorem C2_graph_topology (o : Oracles) (t : String) (mr : Nat) (uq : Option String)
    (th : TimeHorizon) (hmr : mr = 1 ∨ mr = 2 ∨ mr = 3) :
    (o.fetchStock t = none →
      (runDebate o t mr uq th).2.1 = [Node.fetch_data, Node.error_handler]) ∧
    (∀ sd, o.fetchStock t = some sd →
      (∃ rest, (runDebate o t mr uq th).2.1 =
        Node.fetch_data :: Node.summary :: Node.bull_analysis ::
          Node.bear_analysis :: rest) ∧
      Node.error_handler ∉ (runDebate o t mr uq th).2.1) := by
  constructor
  · intro hf
    rw [run_fetch_fail o t mr uq th hf]
  · intro sd hf
    have h := run_fetch_ok o t uq th sd hf mr hmr
    exact ⟨h.2.2.2.2.2.2.2.1, h.2.2.2.2.2.2.2.2⟩

/-- Witness for C2: the amended topology at a successful and at a failing
run with one round. -/
theorem C2_graph_topology_witness :
    Node.error_handler ∉ (runDebate okOracle "T" 1 none TimeHorizon.medium_term).2.1 ∧
    (runDebate failOracle "T" 1 none TimeHorizon.medium_term).2.1 =
      [Node.fetch_data, Node.error_handler] :=
  ⟨((C2_graph_topology okOracle "T" 1 none TimeHorizon.medium_term
      (Or.inl rfl)).2 sdEx rfl).2,
   (C2_graph_topology failOracle "T" 1 none TimeHorizon.medium_term
      (Or.inl rfl)).1 rfl⟩

/-- Counterexample for C2 as stated: the node executed right after a
successful fetch is the summary node, not the bull analysis node. -/
theorem C2_counterexample :
    (runDebate okOracle "T" 1 none TimeHorizon.medium_term).2.1[1]? =
      some Node.summary ∧
    Node.summary ≠ Node.bull_analysis := by
  decide

/-- C3 (amended): when the quote fetch returns no data the run ends in the
error phase, only the fetch node and the error handler execute (no
analysis node), all three analysis slots stay empty, and exactly two error
events are emitted — one by the fetch node and one by the error handler
(not one, as the claim states). -/
theorem C3_fetch_failure_terminates (o : Oracles) (t : String) (mr : Nat)
    (uq : Option String) (th : TimeHorizon) (hf : o.fetchStock t = none) :
    (runDebate o t mr uq th).1.phase = Phase.error ∧
    (runDebate o t mr uq th).1.bull_analysis = none ∧
    (runDebate o t mr uq th).1.bear_analysis = none ∧
    (runDebate o t mr uq th).1.moderator_analysis = none ∧
    (runDebate o t mr uq th).2.1 = [Node.fetch_data, Node.error_handler] ∧
    ((runDebate o t mr uq th).2.2.filter (fun u => u.type = "error")).length = 2 ∧
    (runDebate o t mr uq th).2.2.length = 2 := by
  rw [run_fetch_fail o t mr uq th hf]
  simp [create_initial_state, fetchErrUpd]

/-- Witness for C3: a failing fetch for ticker `"T"`. -/
theorem C3_fetch_failure_terminates_witness :
    (runDebate failOracle "T" 1 none TimeHorizon.medium_term).1.phase = Phase.error ∧
    ((runDebate failOracle "T" 1 none TimeHorizon.medium_term).2.2.filter
      (fun u => u.type = "error")).length = 2 :=
  ⟨(C3_fetch_failure_terminates failOracle "T" 1 none TimeHorizon.medium_term rfl).1,
   (C3_fetch_failure_terminates failOracle "T" 1 none
      TimeHorizon.medium_term rfl).2.2.2.2.2.1⟩

/-- Counterexample for C3 as stated: a failed fetch emits two error
events, not exactly one. -/
theorem C3_counterexample :
    ((runDebate failOracle "T" 1 none TimeHorizon.medium_term).2.2.filter
      (fun u => u.type = "error")).length = 2 ∧
    ¬ ((runDebate failOracle "T" 1 none TimeHorizon.medium_term).2.2.filter
      (fun u => u.type = "error")).length = 1 := by
  decide

/-- C8: the aggregating endpoint fails exactly when the terminal phase is
`error` or the moderator slot is empty; a successful response's verdict is
the moderator's recommendation (`"HOLD"` when absent), its `total_rounds`
is the final `current_round` (1 when `max_rounds = 1`), and ticker
`"INFY"` on exchange `"NSE"` is fetched as `"INFY.NS"`.  `hmod` records
that the moderator collaborator never returns an empty-string
recommendation (its parser yields members of the closed set or
`"MIXED SIGNALS"`, per C5). -/
theorem C8_aggregating_endpoint (o : Oracles) (req : AnalyzeRequest)
    (hmr : req.max_rounds = 1 ∨ req.max_rounds = 2 ∨ req.max_rounds = 3)
    (hmod : ∀ sd bl br th hist,
      (o.moderatorSynthesize sd bl br th hist).recommendation ≠ some "") :
    ((∃ c d, analyze_stock o req = ApiResult.httpError c d) ↔
      ((runDebate o (format_ticker req.ticker req.exchange) req.max_rounds
          req.user_query req.time_horizon).1.phase = Phase.error ∨
        (runDebate o (format_ticker req.ticker req.exchange) req.max_rounds
          req.user_query req.time_horizon).1.moderator_analysis = none)) ∧
    (∀ resp, analyze_stock o req = ApiResult.ok resp →
      ∃ m, (runDebate o (format_ticker req.ticker req.exchange) req.max_rounds
          req.user_query req.time_horizon).1.moderator_analysis = some m ∧
        resp.verdict = m.recommendation.getD "HOLD" ∧
        resp.total_rounds = (runDebate o (format_ticker req.ticker req.exchange)
          req.max_rounds req.user_query req.time_horizon).1.current_round) ∧
    (req.max_rounds = 1 → ∀ resp, analyze_stock o req = ApiResult.ok resp →
      resp.total_rounds = 1) ∧
    format_ticker "INFY" "NSE" = "INFY.NS" := by
  cases hfet : o.fetchStock (format_ticker req.ticker req.exchange) with
  | none =>
    have hrun := run_fetch_fail o (format_ticker req.ticker req.exchange)
      req.max_rounds req.user_query req.time_horizon hfet
    have herrP : (runDebate o (format_ticker req.ticker req.exchange) req.max_rounds
        req.user_query req.time_horizon).1.phase = Phase.error := by
      rw [hrun]
    have herrE : (runDebate o (format_ticker req.ticker req.exchange) req.max_rounds
        req.user_query req.time_horizon).1.error =
        some ("Failed to fetch data for ticker: " ++ format_ticker req.ticker req.exchange) := by
      rw [hrun]
    have hfail : analyze_stock o req = ApiResult.httpError 500
        ("Failed to fetch data for ticker: " ++ format_ticker req.ticker req.exchange) := by
      unfold analyze_stock
      dsimp only
      rw [herrE]
      have : optStrTruthy (some ("Failed to fetch data for ticker: " ++
          format_ticker req.ticker req.exchange)) = true := by
        simp only [optStrTruthy, strTruthy]
        exact decide_eq_true (string_append_ne_empty _ (by decide))
      rw [this]
      rfl
    refine ⟨?_, ?_, ?_, by decide⟩
    · exact ⟨fun _ => Or.inl herrP, fun _ => ⟨500, _, hfail⟩⟩
    · intro resp hresp
      rw [hfail] at hresp
      exact absurd hresp (by simp)
    · intro _ resp hresp
      rw [hfail] at hresp
      exact absurd hresp (by simp)
  | some sd =>
    have h := run_fetch_ok o (format_ticker req.ticker req.exchange) req.user_query
      req.time_horizon sd hfet req.max_rounds hmr
    obtain ⟨hphase, herr, hcr, hsd, hmodS, hbullS, hbearS, -, -⟩ := h
    obtain ⟨m, hm⟩ := Option.isSome_iff_exists.mp hmodS
    obtain ⟨b, hb⟩ := Option.isSome_iff_exists.mp hbullS
    obtain ⟨r, hr⟩ := Option.isSome_iff_exists.mp hbearS
    obtain ⟨a1, a2, a3, a4, a5, hmval⟩ := run_fetch_ok_mod o
      (format_ticker req.ticker req.exchange) req.user_query req.time_horizon sd
      hfet req.max_rounds hmr
    have hmne : m.recommendation ≠ some "" := by
      rw [hm] at hmval
      injection hmval with hmval
      rw [hmval]
      exact hmod a1 a2 a3 a4 a5
    have hok : analyze_stock o req = ApiResult.ok
        { ticker := format_ticker req.ticker req.exchange,
          verdict := pyOrStr m.recommendation "HOLD",
          total_rounds := (runDebate o (format_ticker req.ticker req.exchange)
            req.max_rounds req.user_query req.time_horizon).1.current_round,
          bull_analysis := b, bear_analysis := r, moderator_analysis := m } := by
      unfold analyze_stock
      dsimp only
      rw [herr, hm, hsd, hb, hr]
      rfl
    refine ⟨?_, ?_, ?_, by decide⟩
    · constructor
      · intro hex
        obtain ⟨c, d, hcd⟩ := hex
        rw [hok] at hcd
        exact absurd hcd (by simp)
      · intro hor
        rcases hor with hp | hmn
        · rw [hphase] at hp
          exact absurd hp (by simp)
        · rw [hm] at hmn
          exact absurd hmn (by simp)
    · intro resp hresp
      rw [hok] at hresp
      injection hresp with hresp
      refine ⟨m, hm, ?_, ?_⟩
      · rw [← hresp]
        exact pyOrStr_eq_getD hmne "HOLD"
      · rw [← hresp]
    · intro hmr1 resp hresp
      rw [hok] at hresp
      injection hresp with hresp
      rw [← hresp]
      show (runDebate o (format_ticker req.ticker req.exchange) req.max_rounds
        req.user_query req.time_horizon).1.current_round = 1
      rw [hcr, hmr1]

/-- C9: after a cold start, two serialized callers within the 5-minute
TTL window trigger exactly one bulk-refresh cycle between them, and the
second caller receives the value the first one computed.  (The lock spans
the whole method body, so the serialized model covers every concurrent
interleaving; the blocked caller's `now` is its post-acquisition clock
`t2`.) -/
theorem C9_cache_single_refresh (fetchSym : String → Option TickerEntry)
    (t1 t2 : Int) (h1 : t1 ≤ t2) (h2 : t2 - t1 < 300) :
    (get_ticker_tape_data fetchSym t1 {}).2.2 +
      (get_ticker_tape_data fetchSym t2
        (get_ticker_tape_data fetchSym t1 {}).2.1).2.2 = 1 ∧
    (get_ticker_tape_data fetchSym t2
        (get_ticker_tape_data fetchSym t1 {}).2.1).1 =
      (get_ticker_tape_data fetchSym t1 {}).1 := by
  have hcold : get_ticker_tape_data fetchSym t1 {} = refreshCache fetchSym t1 := rfl
  rw [hcold]
  unfold refreshCache
  dsimp only
  unfold get_ticker_tape_data
  dsimp only
  rw [if_pos]
  · exact ⟨rfl, rfl⟩
  · show t2 - t1 < cache_ttl_seconds
    exact h2

/-- Witness for C9: two calls at times 0 and 10 after a cold start. -/
theorem C9_cache_single_refresh_witness :
    (get_ticker_tape_data (fun _ => none) 0 {}).2.2 +
      (get_ticker_tape_data (fun _ => none) 10
        (get_ticker_tape_data (fun _ => none) 0 {}).2.1).2.2 = 1 ∧
    (get_ticker_tape_data (fun _ => none) 10
        (get_ticker_tape_data (fun _ => none) 0 {}).2.1).1 =
      (get_ticker_tape_data (fun _ => none) 0 {}).1 :=
  C9_cache_single_refresh (fun _ => none) 0 10 (by decide) (by decide)

/-- Witness for C8: the endpoint theorem applied at a concrete oracle and
the request (ticker INFY, exchange NSE, one round). -/
theorem C8_aggregating_endpoint_witness : format_ticker "INFY" "NSE" = "INFY.NS" :=
  (C8_aggregating_endpoint okOracle { ticker := "INFY", exchange := "NSE" }
    (Or.inl rfl)
    (fun _ _ _ _ _ => by
      show some "MIXED SIGNALS" ≠ some ""
      decide)).2.2.2

/-- Witness for C5: a completion with `"recommendation": "VERY BULLISH"`
parses to an analysis whose recommendation is `"MIXED SIGNALS"`. -/
theorem C5_moderator_invalid_recommendation_coerced_witness :
    c5analysis.recommendation = some "MIXED SIGNALS" := by
  apply C5_moderator_invalid_recommendation_coerced c5prims 0 c5input [] c5analysis
  · show ModeratorAgent.parse_result c5prims 0 c5input [] = Except.ok c5analysis
    rfl
  · intro s hs
    rw [show extractedRecommendation c5prims c5input
        = some (Json.str "VERY BULLISH") from rfl] at hs
    injection hs with h1
    injection h1 with h2
    rw [← h2]
    decide

end StockArena
